import Mathlib

/-!
# Verification of the wallfacer task execution engine

A shallow embedding, in Lean 4, of the parts of the `changkun/wallfacer`
repository that the specification claims talk about:

* the Runner turn loop (`Runner.Run`, `Runner.commit`, `Runner.runContainer`
  from the package-main runner source file),
* startup recovery (`recoverOrphanedTasks` from `server.go`),
* the commit pipeline (`Runner.commit`, `Runner.rebaseAndMerge`,
  `Runner.resolveConflicts` from `internal/runner/commit.go`),
* the HTTP output-file handler (`Handler.ServeOutput` from
  `internal/handler/tasks.go`),
* the store mutator `ResetTaskForRetry` (its implementation file is not in
  the source snapshot; it is modelled from the specification and its test).

Go strings are Lean `String`s, Go ints are `Nat` where the source only ever
holds non-negative values, `float64` cost counters are modelled as an
abstract additively-accumulated `Int`, maps are association lists, and the
store is a record that the embedded operations update in the order the source
calls them.  Container invocations and git subprocesses are inputs: a run of
the loop is driven by a script of per-turn container outcomes.
-/

/-- `claudeUsage`: token usage block of the agent's JSON output. -/
structure claudeUsage where
  inputTokens : Nat
  outputTokens : Nat
  cacheReadInputTokens : Nat
  cacheCreationInputTokens : Nat
deriving DecidableEq, Repr

/-- `claudeOutput`: the parsed result document produced by one container run. -/
structure claudeOutput where
  result : String
  sessionID : String
  stopReason : String
  subtype : String
  isError : Bool
  totalCostUSD : Int
  usage : claudeUsage
deriving DecidableEq, Repr

/-- `TaskUsage`: accumulated usage stored on a task (store model).
`CostUSD` is `float64` in Go; it is only ever added to, so it is modelled as
an `Int`-valued additive counter. -/
structure TaskUsage where
  inputTokens : Nat
  outputTokens : Nat
  cacheReadInputTokens : Nat
  cacheCreationTokens : Nat
  costUSD : Int
deriving DecidableEq, Repr

/-- The usage delta the Runner accumulates from one turn
(`store.AccumulateTaskUsage` call sites in the runner). -/
def usageOf (o : claudeOutput) : TaskUsage :=
  { inputTokens := o.usage.inputTokens
    outputTokens := o.usage.outputTokens
    cacheReadInputTokens := o.usage.cacheReadInputTokens
    cacheCreationTokens := o.usage.cacheCreationInputTokens
    costUSD := o.totalCostUSD }

/-- A task event (`store.TaskEvent`): kind plus its string-map payload, as
inserted by `store.InsertEvent`. -/
structure TaskEvent where
  kind : String
  data : List (String × String)
deriving DecidableEq, Repr

/-- The task fields the Runner's turn loop reads and writes. -/
structure TaskState where
  status : String
  result : Option String
  sessionID : Option String
  stopReason : Option String
  turns : Nat
  usage : TaskUsage
deriving DecidableEq, Repr

/-- The slice of the Store a single task's Runner touches, together with an
audit trace: the task record, its event list, the turn numbers passed to
`SaveTurnOutput`, and the `(prompt, sessionID)` pairs of every container
invocation (`runContainer` call sites). -/
structure RunnerStore where
  task : TaskState
  events : List TaskEvent
  savedTurns : List Nat
  calls : List (String × String)
deriving DecidableEq, Repr

namespace RunnerStore

/-- `store.UpdateTaskStatus`. -/
def updateStatus (st : RunnerStore) (s : String) : RunnerStore :=
  { st with task := { st.task with status := s } }

/-- `store.UpdateTaskResult`: sets result, session id, stop reason and turns. -/
def updateResult (st : RunnerStore) (result sessionID stopReason : String)
    (turns : Nat) : RunnerStore :=
  { st with task := { st.task with
      result := some result
      sessionID := some sessionID
      stopReason := some stopReason
      turns := turns } }

/-- `store.AccumulateTaskUsage`: adds each counter. -/
def accumulateUsage (st : RunnerStore) (u : TaskUsage) : RunnerStore :=
  { st with task := { st.task with usage :=
      { inputTokens := st.task.usage.inputTokens + u.inputTokens
        outputTokens := st.task.usage.outputTokens + u.outputTokens
        cacheReadInputTokens := st.task.usage.cacheReadInputTokens + u.cacheReadInputTokens
        cacheCreationTokens := st.task.usage.cacheCreationTokens + u.cacheCreationTokens
        costUSD := st.task.usage.costUSD + u.costUSD } } }

/-- `store.InsertEvent`. -/
def insertEvent (st : RunnerStore) (kind : String)
    (data : List (String × String)) : RunnerStore :=
  { st with events := st.events ++ [⟨kind, data⟩] }

/-- `store.SaveTurnOutput` (only the turn number matters to the claims). -/
def saveTurn (st : RunnerStore) (n : Nat) : RunnerStore :=
  { st with savedTurns := st.savedTurns ++ [n] }

/-- Records one `runContainer` invocation with the prompt and session id the
Runner passed to it. -/
def recordCall (st : RunnerStore) (prompt sessionID : String) : RunnerStore :=
  { st with calls := st.calls ++ [(prompt, sessionID)] }

end RunnerStore

/-- The result of one `runContainer` call as seen by the loop: either the
driver error, or a parsed output document. -/
inductive TurnResult where
  | err (msg : String)
  | ok (o : claudeOutput)
deriving DecidableEq, Repr

/-- `truncate` from the runner source.  Go slices bytes; the model counts
characters, which agrees on ASCII. -/
def truncate (s : String) (n : Nat) : String :=
  if s.length ≤ n then s else String.append (s.take n) "..."

/-- Runner configuration: the whitespace-separated workspace list
(`Runner.workspaces`). -/
structure RunnerCfg where
  workspaces : String
deriving Repr

/-- `strings.Fields`: split on whitespace, dropping empty fields. -/
def fieldsOf (s : String) : List String :=
  (s.split Char.isWhitespace).filter (fun w => w ≠ "")

/-- `Runner.workspacePaths`: the container-side paths for mounted workspaces.
For each workspace, the basename is the last `/`-separated component, or the
second-to-last when the path ends in `/`. -/
def workspacePaths (r : RunnerCfg) : List String :=
  if r.workspaces = "" then []
  else
    (fieldsOf r.workspaces).filterMap (fun ws =>
      let ws := ws.trim
      if ws = "" then none
      else
        let parts := ws.splitOn "/"
        let basename := parts.getLastD ""
        let basename :=
          if basename = "" ∧ parts.length > 1 then
            (parts.dropLast).getLastD ""
          else basename
        some (String.append "/workspace/" basename))

/-- The commit prompt built by `Runner.commit` in the turn-loop runner
source, depending on whether any workspace paths are configured. -/
def commitPromptFor (r : RunnerCfg) : String :=
  let dirs := workspacePaths r
  if dirs.length > 0 then
    "Commit all changes. The workspace repositories are at: " ++
      String.intercalate ", " dirs ++ ". " ++
      "For each directory, cd into it, run `git status`, and if there are " ++
      "uncommitted changes, stage them with `git add -A` and create a commit " ++
      "with a descriptive message summarizing the changes. " ++
      "Report what you committed."
  else
    "Commit all changes. Check `git status` in each subdirectory " ++
      "of /workspace. If there are uncommitted changes, stage them with `git add -A` " ++
      "and create a commit with a descriptive message summarizing the changes. " ++
      "Report what you committed."

/-- `Runner.commit` of the turn-loop runner source: one auto-commit container
turn.  Inserts the announcement event, runs the container on the commit
prompt, saves the turn output, and either records the error event (driver
error) or persists the result — keeping the task's original session id —
and accumulates usage.  It never touches the task's status. -/
def commitRun (r : RunnerCfg) (st : RunnerStore) (sessionID : String)
    (turns : Nat) (tr : TurnResult) : RunnerStore :=
  let st := st.insertEvent "output" [("result", "Auto-running commit...")]
  let turns := turns + 1
  let st := st.recordCall (commitPromptFor r) sessionID
  match tr with
  | .err msg =>
      let st := st.saveTurn turns
      st.insertEvent "error" [("error", String.append "commit failed: " msg)]
  | .ok o =>
      let st := st.saveTurn turns
      let st := st.insertEvent "output"
        [("result", o.result), ("stop_reason", o.stopReason), ("session_id", o.sessionID)]
      let st := st.updateResult o.result sessionID o.stopReason turns
      st.accumulateUsage (usageOf o)

/-- Outcome of one iteration of the `Runner.Run` loop: continue with the new
store, prompt, session id and turn counter, or halt with the final store. -/
inductive StepOut where
  | next (st : RunnerStore) (prompt sessionID : String) (turns : Nat)
  | halt (st : RunnerStore)
deriving DecidableEq, Repr

/-- One iteration of the `Runner.Run` per-turn loop, mirroring the source:
increment the turn counter, invoke the container, always save the turn
output; on a driver error transition to `failed` with `error` and
`state_change` events; otherwise insert the `output` event, adopt a
non-empty returned session id, persist result/turns, accumulate usage, and
dispatch: `is_error` → `failed`; `end_turn` → `done` (auto-committing when
resumed from waiting with a session); `max_tokens`/`pause_turn` → continue
with an empty prompt; `subtype=success` → `done`; otherwise → `waiting`. -/
def runStep (r : RunnerCfg) (resumed : Bool) (st : RunnerStore)
    (prompt sessionID : String) (turns : Nat) (tr commitTr : TurnResult) :
    StepOut :=
  let turns := turns + 1
  let st := st.recordCall prompt sessionID
  match tr with
  | .err msg =>
      let st := st.saveTurn turns
      let st := st.updateStatus "failed"
      let st := st.updateResult msg sessionID "" turns
      let st := st.insertEvent "error" [("error", msg)]
      let st := st.insertEvent "state_change" [("from", "in_progress"), ("to", "failed")]
      .halt st
  | .ok o =>
      let st := st.saveTurn turns
      let st := st.insertEvent "output"
        [("result", o.result), ("stop_reason", o.stopReason), ("session_id", o.sessionID)]
      let sessionID := if o.sessionID = "" then sessionID else o.sessionID
      let st := st.updateResult o.result sessionID o.stopReason turns
      let st := st.accumulateUsage (usageOf o)
      if o.isError then
        let st := st.updateStatus "failed"
        let st := st.insertEvent "state_change" [("from", "in_progress"), ("to", "failed")]
        .halt st
      else if o.stopReason = "end_turn" then
        let st := st.updateStatus "done"
        let st := st.insertEvent "state_change" [("from", "in_progress"), ("to", "done")]
        let st := if resumed ∧ sessionID ≠ "" then commitRun r st sessionID turns commitTr else st
        .halt st
      else if o.stopReason = "max_tokens" ∨ o.stopReason = "pause_turn" then
        .next st "" sessionID turns
      else if o.subtype = "success" then
        let st := st.updateStatus "done"
        let st := st.insertEvent "state_change" [("from", "in_progress"), ("to", "done")]
        let st := if resumed ∧ sessionID ≠ "" then commitRun r st sessionID turns commitTr else st
        .halt st
      else
        let st := st.updateStatus "waiting"
        let st := st.insertEvent "state_change" [("from", "in_progress"), ("to", "waiting")]
        .halt st

/-- The `Runner.Run` loop, driven by a finite script of container outcomes.
`commitTr` is the outcome of the container turn the auto-commit would run.
An exhausted script means the run is still in flight; the store is returned
as is. -/
def runLoop (r : RunnerCfg) (resumed : Bool) :
    List TurnResult → TurnResult → RunnerStore → String → String → Nat → RunnerStore
  | [], _, st, _, _, _ => st
  | tr :: rest, commitTr, st, prompt, sessionID, turns =>
      match runStep r resumed st prompt sessionID turns tr commitTr with
      | .halt st' => st'
      | .next st' p' s' t' => runLoop r resumed rest commitTr st' p' s' t'

/-- `Runner.Run` entry: `resumedFromWaiting` is `sessionID ≠ ""` and the turn
counter starts at the stored `task.Turns`. -/
def runEmbed (r : RunnerCfg) (script : List TurnResult) (commitTr : TurnResult)
    (st : RunnerStore) (prompt sessionID : String) : RunnerStore :=
  runLoop r (sessionID ≠ "") script commitTr st prompt sessionID st.task.turns

example :
    (runEmbed ⟨""⟩
      [TurnResult.ok ⟨"ok", "s1", "end_turn", "", false, 1, ⟨10, 5, 0, 0⟩⟩]
      (TurnResult.err "unused")
      ⟨⟨"in_progress", none, none, none, 0, ⟨0,0,0,0,0⟩⟩, [], [], []⟩
      "hi" "").task.status = "done" := by decide

/-! ## Startup recovery (`recoverOrphanedTasks`, `server.go`) -/

/-- A loaded task as startup recovery sees it: its status and event list. -/
structure RecTask where
  status : String
  events : List TaskEvent
deriving DecidableEq, Repr

/-- The per-task body of the recovery loop in `recoverOrphanedTasks`:
an `in_progress` or `committing` task is marked `failed` and gains an
`error` event plus the matching `state_change` event; any other task is
left alone. -/
def recoverOne (t : RecTask) : RecTask :=
  if t.status = "in_progress" ∨ t.status = "committing" then
    { status := "failed"
      events := t.events ++
        [⟨"error", [("error", String.append "server restarted while task was " t.status)]⟩,
         ⟨"state_change", [("from", t.status), ("to", "failed")]⟩] }
  else t

/-- `recoverOrphanedTasks`: applies the recovery body to every loaded task. -/
def recoverOrphanedTasks (ts : List RecTask) : List RecTask :=
  ts.map recoverOne

/-! ## Container driver tail (`Runner.runContainer`, turn-loop runner source)

Only the part after the subprocess returns is embedded: the raw stdout, the
subprocess error (classified, as the source does, into `*exec.ExitError` with
a code versus any other error) and the JSON decoder — an arbitrary parse
function standing for `json.Unmarshal` into `claudeOutput` — determine the
returned value. -/

/-- The classified `cmd.Run()` error: `exit c` is an `*exec.ExitError` with
exit code `c`; `other` is any other execution error; absence (`Option.none`
at the call site) is a clean exit. -/
inductive RunErr where
  | exit (code : Int)
  | other (msg : String)
deriving DecidableEq, Repr

/-- `strings.TrimSpace`: drop leading and trailing whitespace. -/
def trimSpace (s : String) : String :=
  ⟨((s.data.dropWhile Char.isWhitespace).reverse.dropWhile Char.isWhitespace).reverse⟩

/-- The decision tail of `runContainer`: trim stdout; an empty trimmed stdout
is always an error (distinguishing the three subprocess outcomes); a parse
failure is always an error (again distinguishing them); a successful parse
returns the output with a nil error even when the subprocess failed (the
source only logs a warning then). -/
def runContainerTail (parse : String → Option claudeOutput)
    (stdout stderr : String) (runErr : Option RunErr) :
    Except String claudeOutput :=
  let raw := trimSpace stdout
  if raw = "" then
    match runErr with
    | some (.exit c) =>
        .error ("container exited with code " ++ toString c ++ ": stderr=" ++ stderr)
    | some (.other msg) => .error (String.append "exec container: " msg)
    | none => .error "empty output from container"
  else
    match parse raw with
    | none =>
        match runErr with
        | some (.exit c) =>
            .error ("container exited with code " ++ toString c ++ ": stderr=" ++ stderr ++
              " stdout=" ++ truncate raw 500)
        | some (.other msg) => .error (String.append "exec container: " msg)
        | none => .error ("parse output: failed (raw: " ++ truncate raw 200 ++ ")")
    | some o => .ok o

/-! ## Output file handler (`Handler.ServeOutput`, `internal/handler/tasks.go`) -/

/-- Whether the character list `pat` is a prefix of `text` (Boolean). -/
def startsWithL : List Char → List Char → Bool
  | [], _ => true
  | _ :: _, [] => false
  | p :: ps, t :: ts => p == t && startsWithL ps ts

/-- Whether `pat` occurs as a contiguous sublist of the second argument. -/
def hasSubL (pat : List Char) : List Char → Bool
  | [] => pat.isEmpty
  | t :: ts => startsWithL pat (t :: ts) || hasSubL pat ts

/-- `strings.Contains sub s` of Go, on the model's strings. -/
def strContainsSub (s sub : String) : Bool :=
  hasSubL sub.data s.data

/-- The HTTP outcome of `ServeOutput`. -/
inductive HTTPResult where
  | badRequest (msg : String)
  | notFound (msg : String)
  | served (contentType : String) (path : String)
deriving DecidableEq, Repr

/-- `Handler.ServeOutput`: reject filenames containing `/` or `..` with 400
before touching the filesystem; 404 when the joined path does not exist;
otherwise serve with a suffix-dependent content type.  The filesystem is the
oracle `fsExists`; `filepath.Join` is modelled as `/`-concatenation (both
arguments are non-empty clean paths at the call site). -/
def serveOutput (outputsDir filename : String) (fsExists : String → Bool) :
    HTTPResult :=
  if strContainsSub filename "/" || strContainsSub filename ".." then
    .badRequest "invalid filename"
  else
    let path := outputsDir ++ "/" ++ filename
    if !fsExists path then .notFound "not found"
    else if filename.endsWith ".json" then .served "application/json" path
    else .served "text/plain; charset=utf-8" path

/-! ## Store: `ResetTaskForRetry`

The store's task-mutator implementation file is not part of the source
snapshot (only its tests are), so this operation is modelled from the
specification, cross-checked against `TestResetTaskForRetry` and
`TestResetTaskForRetry_AccumulatesHistory` in `internal/store/tasks_test.go`. -/

/-- The full task record, as far as retry-reset is concerned. -/
structure StoreTask where
  prompt : String
  promptHistory : List String
  status : String
  freshStart : Bool
  result : Option String
  stopReason : Option String
  turns : Nat
  worktreePaths : List (String × String)
  branchName : String
  commitHashes : List (String × String)
  baseCommitHashes : List (String × String)
deriving DecidableEq, Repr

/-- Modelled from the spec: `Store.ResetTaskForRetry` (its implementation
file is absent from the source snapshot; only `internal/store/tasks_test.go`
is present).  Per spec §4.2 it appends the current prompt to the history when
the new prompt differs, installs the new prompt and fresh-start flag, clears
result, stop reason and turns, clears the worktree/commit/base maps and the
branch name, and transitions the status to `backlog` — exactly what the test
asserts. -/
def resetTaskForRetry (t : StoreTask) (newPrompt : String)
    (freshStart : Bool) : StoreTask :=
  { t with
    promptHistory :=
      if newPrompt ≠ t.prompt then t.promptHistory ++ [t.prompt] else t.promptHistory
    prompt := newPrompt
    freshStart := freshStart
    result := none
    stopReason := none
    turns := 0
    worktreePaths := []
    branchName := ""
    commitHashes := []
    baseCommitHashes := []
    status := "backlog" }

/-! ## Spec model: the per-turn cancellation guard

The repository's current runner lives in `internal/runner/execute.go`, which
is absent from the source snapshot; `plans/error-handling-improvements.md`
§1.5 documents its two cancelled-status guard clauses
(`cur, _ := r.store.GetTask(...)`; `if cur.Status == "cancelled" { return }`).
The guarded turn is therefore modelled from the specification (§4.5 step 3):
after the turn's output event, session id, result/turns and usage are
persisted, the task is re-read; if its status is now `cancelled` the Runner
exits silently, otherwise it dispatches on the stop-reason. -/

/-- Modelled from the spec: the store mutations of one completed turn that
precede the cancellation guard — insert the `output` event, adopt a
non-empty returned session id, persist result/turns, accumulate usage.
Returns the mutated store and the effective session id. -/
def specTurnPersist (st : RunnerStore) (o : claudeOutput)
    (sessionID : String) (turns : Nat) : RunnerStore × String :=
  let st := st.insertEvent "output"
    [("result", o.result), ("stop_reason", o.stopReason), ("session_id", o.sessionID)]
  let s := if o.sessionID = "" then sessionID else o.sessionID
  let st := st.updateResult o.result s o.stopReason turns
  (st.accumulateUsage (usageOf o), s)

/-- Modelled from the spec: the stop-reason dispatch that follows the guard
(§4.5 step 3): `end_turn` → `done`; `max_tokens`/`pause_turn` → no state
change (the loop continues); else `is_error` → `failed`, `subtype=success`
→ `done`, otherwise `waiting`; every transition inserts the matching
`state_change` event. -/
def specDispatchStop (st : RunnerStore) (o : claudeOutput) : RunnerStore :=
  if o.stopReason = "end_turn" then
    (st.updateStatus "done").insertEvent "state_change"
      [("from", "in_progress"), ("to", "done")]
  else if o.stopReason = "max_tokens" ∨ o.stopReason = "pause_turn" then
    st
  else if o.isError then
    (st.updateStatus "failed").insertEvent "state_change"
      [("from", "in_progress"), ("to", "failed")]
  else if o.subtype = "success" then
    (st.updateStatus "done").insertEvent "state_change"
      [("from", "in_progress"), ("to", "done")]
  else
    (st.updateStatus "waiting").insertEvent "state_change"
      [("from", "in_progress"), ("to", "waiting")]

/-- Modelled from the spec: one guarded turn of the current runner — persist
the turn, re-read the task, exit silently when its status has become
`cancelled`, otherwise dispatch on the stop-reason. -/
def specRunTurnGuarded (st : RunnerStore) (o : claudeOutput)
    (sessionID : String) (turns : Nat) : RunnerStore :=
  let st1 := (specTurnPersist st o sessionID turns).1
  if st1.task.status = "cancelled" then st1
  else specDispatchStop st1 o

/-! ## Commit pipeline (`internal/runner/commit.go`)

The pipeline's store and subprocess actions are traced as a list of effects.
Phase 1 (`hostStageAndCommit`, commit.go:106-165) and the commit-message
generator (commit.go:171-236) issue only `git` subprocesses and log lines —
no store calls — so they contribute no effects to the trace.  `gitutil`
results (default branch, ahead check, rebase, ff-merge, hashes) and the
conflict-resolver container are inputs of the model.  `maxRebaseRetries` is
a package constant whose defining file is outside the snapshot; the pipeline
is modelled for an arbitrary value of it. -/

/-- A traced action of the commit pipeline. -/
inductive Eff where
  | insertEvent (kind : String) (data : List (String × String))
  | updateCommitHashes (hashes : List (String × String))
  | updateBaseCommitHashes (hashes : List (String × String))
  | updateStatus (status : String)
  | saveTurnOutput (turn : Nat)
  | gitRebase (attempt : Nat)
  | resolverRun (attempt : Nat)
  | writeProgress
  | cleanupWorktrees
deriving DecidableEq, Repr

/-- Outcome of one `gitutil.RebaseOntoDefault` invocation: success, a
failure that `isConflictError` classifies as a conflict (it wraps
`gitutil.ErrConflict`), or any other failure. -/
inductive RebaseOutcome where
  | ok
  | conflict (msg : String)
  | fail (msg : String)
deriving DecidableEq, Repr

/-- Outcome of one `resolveConflicts` container run: driver error, agent
`is_error`, or success with the agent's report. -/
inductive ResolveOutcome where
  | driverErr (msg : String)
  | agentErr (resultMsg : String)
  | ok (resultMsg : String)
deriving DecidableEq, Repr

/-- `filepath.Base`, restricted to the clean absolute paths the pipeline
feeds it. -/
def pathBase (p : String) : String :=
  if p = "" then "."
  else ((p.splitOn "/").filter (fun c => c ≠ "")).getLastD "/"

/-- `Runner.resolveConflicts` (commit.go:357-401): run the resolver
container, save its turn output at `task.Turns + 1`, and fail on a driver
error or an agent-reported error; on success insert the resolver's report as
an `output` event.  `attempt` tags the container run in the trace. -/
def resolveConflictsM (turns : Nat) (attempt : Nat) (ro : ResolveOutcome) :
    List Eff × Option String :=
  match ro with
  | .driverErr m =>
      ([.resolverRun attempt, .saveTurnOutput (turns + 1)],
       some (String.append "conflict resolver container: " m))
  | .agentErr m =>
      ([.resolverRun attempt, .saveTurnOutput (turns + 1)],
       some ("conflict resolver reported error: " ++ truncate m 300))
  | .ok m =>
      ([.resolverRun attempt, .saveTurnOutput (turns + 1),
        .insertEvent "output" [("result", "Conflict resolver: " ++ truncate m 500)]],
       none)

/-- The behaviour of one git worktree during phase 2, as the model's input:
workspace kind, `gitutil` probe results, per-attempt rebase outcomes,
per-attempt resolver outcomes, and merge results. -/
structure WtCase where
  repoPath : String
  isGit : Bool
  extractErr : Option String
  snapHash : Option String
  defBranch : Except String String
  ahead : Bool
  rebase : Nat → RebaseOutcome
  resolver : Nat → ResolveOutcome
  baseHash : Option String
  ffErr : Option String
  mergedHash : Option String

/-- The rebase retry loop of `rebaseAndMerge` (commit.go:291-322), unrolled
on the remaining number of attempts (`fuel`; the loop enters with
`fuel = maxRebaseRetries`, `attempt = 1`, so `attempt + fuel =
maxRebaseRetries + 1` throughout).  Each iteration announces the attempt,
invokes the rebase, and on failure: at the final attempt returns the
after-N-attempts error; for a non-conflict failure returns it immediately;
for a conflict announces and runs the resolver, propagating its failure or
retrying. -/
def rebaseRetryGo (maxR turns : Nat) (repoPath defB : String)
    (rebase : Nat → RebaseOutcome) (resolver : Nat → ResolveOutcome) :
    Nat → Nat → List Eff × Option String
  | 0, _ => ([], none)
  | fuel + 1, attempt =>
      let evs : List Eff :=
        [.insertEvent "output" [("result",
            "Rebasing " ++ repoPath ++ " onto " ++ defB ++ " (attempt " ++
              toString attempt ++ "/" ++ toString maxR ++ ")...")],
         .gitRebase attempt]
      match rebase attempt with
      | .ok => (evs, none)
      | .conflict m =>
          if attempt = maxR then
            (evs, some ("rebase failed after " ++ toString maxR ++ " attempts in " ++
              repoPath ++ ": " ++ m))
          else
            let evs := evs ++
              [.insertEvent "output" [("result",
                  "Conflict in " ++ repoPath ++ " — running resolver (attempt " ++
                    toString attempt ++ ")...")]]
            let rr := resolveConflictsM turns attempt (resolver attempt)
            match rr.2 with
            | some m => (evs ++ rr.1, some (String.append "conflict resolution failed: " m))
            | none =>
                let rec' := rebaseRetryGo maxR turns repoPath defB rebase resolver fuel (attempt + 1)
                (evs ++ rr.1 ++ rec'.1, rec'.2)
      | .fail m =>
          if attempt = maxR then
            (evs, some ("rebase failed after " ++ toString maxR ++ " attempts in " ++
              repoPath ++ ": " ++ m))
          else
            (evs, some ("rebase " ++ repoPath ++ ": " ++ m))

/-- The full retry loop: `maxRebaseRetries` attempts starting at attempt 1. -/
def rebaseRetryLoop (maxR turns : Nat) (repoPath defB : String)
    (rebase : Nat → RebaseOutcome) (resolver : Nat → ResolveOutcome) :
    List Eff × Option String :=
  rebaseRetryGo maxR turns repoPath defB rebase resolver maxR 1

/-- The body of `rebaseAndMerge` for one worktree (commit.go:252-346):
non-git workspaces get their snapshot extracted back (recording the snapshot
head); git workspaces resolve the default branch, are skipped when not
ahead, run the rebase retry loop, record the pre-merge base hash,
fast-forward merge, and record the post-merge hash. -/
def processWorktree (maxR turns : Nat) (branchName : String) (wc : WtCase) :
    List Eff × List (String × String) × List (String × String) × Option String :=
  if !wc.isGit then
    let evs : List Eff := [.insertEvent "output" [("result",
        "Extracting changes from sandbox to " ++ pathBase wc.repoPath ++ "...")]]
    match wc.extractErr with
    | some m => (evs, [], [], some ("extract snapshot for " ++ wc.repoPath ++ ": " ++ m))
    | none =>
        let ch := match wc.snapHash with
          | some h => [(wc.repoPath, h)]
          | none => []
        (evs ++ [.insertEvent "output" [("result",
            "Changes extracted to " ++ pathBase wc.repoPath ++ ".")]],
         ch, [], none)
  else
    match wc.defBranch with
    | .error m => ([], [], [], some ("defaultBranch for " ++ wc.repoPath ++ ": " ++ m))
    | .ok defB =>
        if !wc.ahead then
          ([.insertEvent "output" [("result",
              "Skipping " ++ wc.repoPath ++ " — no new commits to merge.")]],
           [], [], none)
        else
          let lp := rebaseRetryLoop maxR turns wc.repoPath defB wc.rebase wc.resolver
          match lp.2 with
          | some m => (lp.1, [], [], some m)
          | none =>
              let bh := match wc.baseHash with
                | some h => [(wc.repoPath, h)]
                | none => []
              let evs := lp.1 ++ [.insertEvent "output" [("result",
                  "Fast-forward merging " ++ branchName ++ " into " ++ defB ++ "...")]]
              match wc.ffErr with
              | some m => (evs, [], bh, some ("ff-merge " ++ wc.repoPath ++ ": " ++ m))
              | none =>
                  match wc.mergedHash with
                  | some h =>
                      (evs ++ [.insertEvent "output" [("result",
                          "Merged " ++ wc.repoPath ++ " — commit " ++ h.take 8)]],
                       [(wc.repoPath, h)], bh, none)
                  | none => (evs, [], bh, none)

/-- `Runner.rebaseAndMerge` (commit.go:241-349): the per-worktree body over
the worktree map, accumulating commit and base hashes and stopping at the
first error (which is returned together with everything accumulated so
far). -/
def rebaseAndMergeM (maxR turns : Nat) (branchName : String) :
    List WtCase → List Eff × List (String × String) × List (String × String) × Option String
  | [] => ([], [], [], none)
  | wc :: rest =>
      let r := processWorktree maxR turns branchName wc
      match r.2.2.2 with
      | some m => (r.1, r.2.1, r.2.2.1, some m)
      | none =>
          let rs := rebaseAndMergeM maxR turns branchName rest
          (r.1 ++ rs.1, r.2.1 ++ rs.2.1, r.2.2.1 ++ rs.2.2.1, rs.2.2.2)

/-- `Runner.commit` (commit.go:36-102), the four-phase pipeline: announce and
run phase 1 (host-side staging; store-effect-free), announce and run phase 2
(rebase and merge) — a phase-2 error inserts the `error` event and returns —
then phase 3 (persist non-empty hash maps, write PROGRESS.md), phase 4
(worktree cleanup) and the completion event. -/
def commitPipeline (maxR turns : Nat) (branchName : String)
    (wcs : List WtCase) : List Eff :=
  let ram := rebaseAndMergeM maxR turns branchName wcs
  [.insertEvent "output" [("result", "Phase 1/4: Staging and committing changes...")],
   .insertEvent "output" [("result", "Phase 2/4: Rebasing and merging into default branch...")]] ++
  ram.1 ++
  (match ram.2.2.2 with
   | some m => [.insertEvent "error" [("error", String.append "rebase/merge failed: " m)]]
   | none =>
      [.insertEvent "output" [("result", "Phase 3/4: Updating PROGRESS.md...")]] ++
      (if ram.2.1.length > 0 then [.updateCommitHashes ram.2.1] else []) ++
      (if ram.2.2.1.length > 0 then [.updateBaseCommitHashes ram.2.2.1] else []) ++
      [.writeProgress,
       .insertEvent "output" [("result", "Phase 4/4: Cleaning up worktrees...")],
       .cleanupWorktrees,
       .insertEvent "output" [("result", "Commit pipeline completed.")]])

/-- A turn outcome that triggers the auto-continue branch of the loop:
a parsed output without `is_error` whose stop reason is `max_tokens` or
`pause_turn`. -/
def AutoContinue (tr : TurnResult) : Prop :=
  ∃ o, tr = .ok o ∧ o.isError = false ∧
    (o.stopReason = "max_tokens" ∨ o.stopReason = "pause_turn")

/-- Number of conflict-resolver container runs in a pipeline trace. -/
def resolverCount (l : List Eff) : Nat :=
  (l.filter fun e => match e with | .resolverRun _ => true | _ => false).length

/-- Effects that phase 2 may emit: events, turn outputs, rebases and
resolver runs — in particular no status update and none of the phase-3/4
actions. -/
def phase2Benign (e : Eff) : Prop :=
  match e with
  | .insertEvent _ _ => True
  | .saveTurnOutput _ => True
  | .gitRebase _ => True
  | .resolverRun _ => True
  | _ => False

/-! # Theorems -/

section Helpers

/-- `commitRun` never touches the task's status. -/
theorem commitRun_status (r : RunnerCfg) (st : RunnerStore) (s : String)
    (t : Nat) (tr : TurnResult) :
    (commitRun r st s t tr).task.status = st.task.status := by
  cases tr <;>
    simp [commitRun, RunnerStore.insertEvent, RunnerStore.recordCall,
      RunnerStore.saveTurn, RunnerStore.updateResult, RunnerStore.accumulateUsage]

/-- `commitRun` only appends to the event list. -/
theorem commitRun_events (r : RunnerCfg) (st : RunnerStore) (s : String)
    (t : Nat) (tr : TurnResult) :
    ∃ l, (commitRun r st s t tr).events = st.events ++ l := by
  cases tr <;>
    simp [commitRun, RunnerStore.insertEvent, RunnerStore.recordCall,
      RunnerStore.saveTurn, RunnerStore.updateResult, RunnerStore.accumulateUsage]

/-- `commitRun` leaves the turn counter alone or advances it to `t + 1`. -/
theorem commitRun_turns (r : RunnerCfg) (st : RunnerStore) (s : String)
    (t : Nat) (tr : TurnResult) :
    (commitRun r st s t tr).task.turns = st.task.turns ∨
      (commitRun r st s t tr).task.turns = t + 1 := by
  cases tr with
  | err m =>
      left
      simp [commitRun, RunnerStore.insertEvent, RunnerStore.recordCall,
        RunnerStore.saveTurn]
  | ok o =>
      right
      simp [commitRun, RunnerStore.insertEvent, RunnerStore.recordCall,
        RunnerStore.saveTurn, RunnerStore.updateResult, RunnerStore.accumulateUsage]

end Helpers

/-- C2: after startup recovery, every loaded task that was `in_progress` or
`committing` is `failed` with the `error` event
(`server restarted while task was <status>`) and the matching
`state_change` event appended, and no loaded task remains `in_progress` or
`committing`. -/
theorem recovery_fails_orphans (ts : List RecTask) :
    (∀ t' ∈ recoverOrphanedTasks ts,
        t'.status ≠ "in_progress" ∧ t'.status ≠ "committing") ∧
    (∀ t ∈ ts, (t.status = "in_progress" ∨ t.status = "committing") →
        recoverOne t =
          { status := "failed"
            events := t.events ++
              [⟨"error", [("error",
                  String.append "server restarted while task was " t.status)]⟩,
               ⟨"state_change", [("from", t.status), ("to", "failed")]⟩] }) ∧
    recoverOrphanedTasks ts = ts.map recoverOne := by
  refine ⟨?_, ?_, rfl⟩
  · intro t' ht'
    simp only [recoverOrphanedTasks, List.mem_map] at ht'
    obtain ⟨t, -, rfl⟩ := ht'
    unfold recoverOne
    by_cases h : t.status = "in_progress" ∨ t.status = "committing"
    · simp only [h, if_true]
      exact ⟨by decide, by decide⟩
    · simp only [h, if_false]
      push_neg at h
      exact h
  · intro t _ h
    unfold recoverOne
    simp only [h, if_true]

/-- Witness for C2 at a concrete orphaned task. -/
theorem recovery_fails_orphans_witness :
    recoverOne ⟨"in_progress", []⟩ =
      ⟨"failed",
       [⟨"error", [("error", "server restarted while task was in_progress")]⟩,
        ⟨"state_change", [("from", "in_progress"), ("to", "failed")]⟩]⟩ := by
  have h := (recovery_fails_orphans [⟨"in_progress", []⟩]).2.1
    ⟨"in_progress", []⟩ (by simp) (Or.inl rfl)
  simpa using h

/-- C10: `ServeOutput` answers 400 for any filename containing `/` or `..` —
for every filesystem oracle, i.e. without consulting the filesystem — and
404 for any other filename whose joined path does not exist. -/
theorem serveOutput_traversal_guard (outputsDir filename : String)
    (fsExists : String → Bool) :
    ((strContainsSub filename "/" = true ∨ strContainsSub filename ".." = true) →
        serveOutput outputsDir filename fsExists = .badRequest "invalid filename") ∧
    (strContainsSub filename "/" = false → strContainsSub filename ".." = false →
        fsExists (outputsDir ++ "/" ++ filename) = false →
        serveOutput outputsDir filename fsExists = .notFound "not found") := by
  constructor
  · intro h
    unfold serveOutput
    rcases h with h | h <;> simp [h]
  · intro h1 h2 h3
    unfold serveOutput
    simp [h1, h2, h3]

/-- Witness for C10: a traversal filename gets 400 regardless of the
filesystem, and a clean but missing filename gets 404. -/
theorem serveOutput_traversal_guard_witness :
    serveOutput "outputs" "a/../b" (fun _ => true) = .badRequest "invalid filename" ∧
    serveOutput "outputs" "turn-0001.json" (fun _ => false) = .notFound "not found" :=
  ⟨(serveOutput_traversal_guard "outputs" "a/../b" (fun _ => true)).1
      (Or.inl (by decide)),
   (serveOutput_traversal_guard "outputs" "turn-0001.json" (fun _ => false)).2
      (by decide) (by decide) rfl⟩

/-- C3 (spec-modelled: the guarded runner loop lives in
`internal/runner/execute.go`, which is outside the source snapshot): when
the re-read after a completed turn finds the task `cancelled`, the guarded
turn performs no store mutation beyond the pre-guard persistence and the
task's `cancelled` status is never overwritten. -/
theorem cancellation_guard_exits (st : RunnerStore) (o : claudeOutput)
    (sessionID : String) (turns : Nat)
    (hc : st.task.status = "cancelled") :
    specRunTurnGuarded st o sessionID turns = (specTurnPersist st o sessionID turns).1 ∧
    (specRunTurnGuarded st o sessionID turns).task.status = "cancelled" := by
  have hp : (specTurnPersist st o sessionID turns).1.task.status = st.task.status := by
    simp [specTurnPersist, RunnerStore.insertEvent, RunnerStore.updateResult,
      RunnerStore.accumulateUsage]
  have hcond : (specTurnPersist st o sessionID turns).1.task.status = "cancelled" := by
    rw [hp, hc]
  constructor
  · unfold specRunTurnGuarded
    simp [hcond]
  · unfold specRunTurnGuarded
    simp [hcond]

/-- Witness for C3 at a concrete cancelled task and an `end_turn` output. -/
theorem cancellation_guard_exits_witness :
    (specRunTurnGuarded
        ⟨⟨"cancelled", none, none, none, 3, ⟨0, 0, 0, 0, 0⟩⟩, [], [], []⟩
        ⟨"r", "s1", "end_turn", "", false, 1, ⟨1, 1, 0, 0⟩⟩ "s0" 4).task.status
      = "cancelled" :=
  (cancellation_guard_exits
    ⟨⟨"cancelled", none, none, none, 3, ⟨0, 0, 0, 0, 0⟩⟩, [], [], []⟩
    ⟨"r", "s1", "end_turn", "", false, 1, ⟨1, 1, 0, 0⟩⟩ "s0" 4 rfl).2

/-- The auto-continue step in closed form: on `max_tokens`/`pause_turn`
without `is_error`, the loop body persists the turn and continues with an
empty prompt, the adopted session id and the incremented counter, leaving
the status untouched. -/
theorem runStep_auto (r : RunnerCfg) (resumed : Bool) (st : RunnerStore)
    (prompt sessionID : String) (turns : Nat) (o : claudeOutput)
    (ctr : TurnResult) (herr : o.isError = false)
    (hsr : o.stopReason = "max_tokens" ∨ o.stopReason = "pause_turn") :
    runStep r resumed st prompt sessionID turns (.ok o) ctr =
      .next
        { task := { st.task with
            result := some o.result
            sessionID := some (if o.sessionID = "" then sessionID else o.sessionID)
            stopReason := some o.stopReason
            turns := turns + 1
            usage := { inputTokens := st.task.usage.inputTokens + o.usage.inputTokens
                       outputTokens := st.task.usage.outputTokens + o.usage.outputTokens
                       cacheReadInputTokens :=
                         st.task.usage.cacheReadInputTokens + o.usage.cacheReadInputTokens
                       cacheCreationTokens :=
                         st.task.usage.cacheCreationTokens + o.usage.cacheCreationInputTokens
                       costUSD := st.task.usage.costUSD + o.totalCostUSD } }
          events := st.events ++
            [⟨"output", [("result", o.result), ("stop_reason", o.stopReason),
                         ("session_id", o.sessionID)]⟩]
          savedTurns := st.savedTurns ++ [turns + 1]
          calls := st.calls ++ [(prompt, sessionID)] }
        "" (if o.sessionID = "" then sessionID else o.sessionID) (turns + 1) := by
  have hne : o.stopReason ≠ "end_turn" := by
    rcases hsr with h | h <;> rw [h] <;> decide
  simp [runStep, herr, hne, hsr, RunnerStore.recordCall, RunnerStore.saveTurn,
    RunnerStore.insertEvent, RunnerStore.updateResult, RunnerStore.accumulateUsage,
    usageOf]

/-- Across any script made of auto-continue turns, the loop preserves the
status, appends only `output` events, and issues container calls whose
prompts are the incoming prompt (first call) or empty. -/
theorem runLoop_auto (r : RunnerCfg) (resumed : Bool) (ctr : TurnResult) :
    ∀ script : List TurnResult, (∀ tr ∈ script, AutoContinue tr) →
    ∀ (st : RunnerStore) (prompt sessionID : String) (turns : Nat),
      (runLoop r resumed script ctr st prompt sessionID turns).task.status =
          st.task.status ∧
      (∃ tail, (runLoop r resumed script ctr st prompt sessionID turns).events =
          st.events ++ tail ∧ ∀ e ∈ tail, e.kind = "output") ∧
      (∃ ctail, (runLoop r resumed script ctr st prompt sessionID turns).calls =
          st.calls ++ ctail ∧ ∀ c ∈ ctail, c.1 = prompt ∨ c.1 = "") := by
  intro script
  induction script with
  | nil =>
      intro _ st prompt sessionID turns
      exact ⟨rfl, ⟨[], by simp [runLoop]⟩, ⟨[], by simp [runLoop]⟩⟩
  | cons tr rest ih =>
      intro hall st prompt sessionID turns
      obtain ⟨o, rfl, herr, hsr⟩ := hall tr (List.mem_cons_self tr rest)
      have hrest : ∀ tr' ∈ rest, AutoContinue tr' :=
        fun tr' h => hall tr' (List.mem_cons_of_mem _ h)
      rw [runLoop, runStep_auto r resumed st prompt sessionID turns o ctr herr hsr]
      obtain ⟨hstat, ⟨tail, htail, hkinds⟩, ⟨ctail, hctail, hcs⟩⟩ :=
        ih hrest _ "" (if o.sessionID = "" then sessionID else o.sessionID) (turns + 1)
      refine ⟨by rw [hstat], ?_, ?_⟩
      · refine ⟨⟨"output", [("result", o.result), ("stop_reason", o.stopReason),
            ("session_id", o.sessionID)]⟩ :: tail, ?_, ?_⟩
        · rw [htail]
          simp
        · intro e he
          rcases List.mem_cons.mp he with rfl | he
          · rfl
          · exact hkinds e he
      · refine ⟨(prompt, sessionID) :: ctail, ?_, ?_⟩
        · rw [hctail]
          simp
        · intro c hc
          rcases List.mem_cons.mp hc with rfl | hc
          · exact Or.inl rfl
          · rcases hcs c hc with h | h
            · exact Or.inr h
            · exact Or.inr h

/-- The driver-error step in closed form. -/
theorem runStep_err_eq (r : RunnerCfg) (resumed : Bool) (st : RunnerStore)
    (prompt sessionID : String) (turns : Nat) (m : String) (ctr : TurnResult) :
    runStep r resumed st prompt sessionID turns (.err m) ctr =
      .halt
        { task := { status := "failed", result := some m, sessionID := some sessionID
                    stopReason := some "", turns := turns + 1, usage := st.task.usage }
          events := st.events ++
            [⟨"error", [("error", m)]⟩,
             ⟨"state_change", [("from", "in_progress"), ("to", "failed")]⟩]
          savedTurns := st.savedTurns ++ [turns + 1]
          calls := st.calls ++ [(prompt, sessionID)] } := by
  simp [runStep, RunnerStore.recordCall, RunnerStore.saveTurn, RunnerStore.updateStatus,
    RunnerStore.updateResult, RunnerStore.insertEvent]

/-- The `is_error` step in closed form: the turn is fully persisted, then
the task fails before any stop-reason dispatch. -/
theorem runStep_isError_eq (r : RunnerCfg) (resumed : Bool) (st : RunnerStore)
    (prompt sessionID : String) (turns : Nat) (o : claudeOutput)
    (ctr : TurnResult) (he : o.isError = true) :
    runStep r resumed st prompt sessionID turns (.ok o) ctr =
      .halt
        { task := { status := "failed", result := some o.result
                    sessionID := some (if o.sessionID = "" then sessionID else o.sessionID)
                    stopReason := some o.stopReason, turns := turns + 1
                    usage := { inputTokens := st.task.usage.inputTokens + o.usage.inputTokens
                               outputTokens := st.task.usage.outputTokens + o.usage.outputTokens
                               cacheReadInputTokens :=
                                 st.task.usage.cacheReadInputTokens + o.usage.cacheReadInputTokens
                               cacheCreationTokens :=
                                 st.task.usage.cacheCreationTokens + o.usage.cacheCreationInputTokens
                               costUSD := st.task.usage.costUSD + o.totalCostUSD } }
          events := st.events ++
            [⟨"output", [("result", o.result), ("stop_reason", o.stopReason),
                         ("session_id", o.sessionID)]⟩,
             ⟨"state_change", [("from", "in_progress"), ("to", "failed")]⟩]
          savedTurns := st.savedTurns ++ [turns + 1]
          calls := st.calls ++ [(prompt, sessionID)] } := by
  simp [runStep, he, RunnerStore.recordCall, RunnerStore.saveTurn, RunnerStore.updateStatus,
    RunnerStore.updateResult, RunnerStore.insertEvent, RunnerStore.accumulateUsage, usageOf]

/-- The store state after a fully persisted turn whose dispatch transitions
the status to `to`, before any auto-commit. -/
def dispatchedStore (st : RunnerStore) (prompt sessionID : String)
    (turns : Nat) (o : claudeOutput) (tgt : String) : RunnerStore :=
  { task := { status := tgt, result := some o.result
              sessionID := some (if o.sessionID = "" then sessionID else o.sessionID)
              stopReason := some o.stopReason, turns := turns + 1
              usage := { inputTokens := st.task.usage.inputTokens + o.usage.inputTokens
                         outputTokens := st.task.usage.outputTokens + o.usage.outputTokens
                         cacheReadInputTokens :=
                           st.task.usage.cacheReadInputTokens + o.usage.cacheReadInputTokens
                         cacheCreationTokens :=
                           st.task.usage.cacheCreationTokens + o.usage.cacheCreationInputTokens
                         costUSD := st.task.usage.costUSD + o.totalCostUSD } }
    events := st.events ++
      [⟨"output", [("result", o.result), ("stop_reason", o.stopReason),
                   ("session_id", o.sessionID)]⟩,
       ⟨"state_change", [("from", "in_progress"), ("to", tgt)]⟩]
    savedTurns := st.savedTurns ++ [turns + 1]
    calls := st.calls ++ [(prompt, sessionID)] }

/-- The `end_turn` step in closed form: the task is marked `done` and the
auto-commit turn runs exactly when the run was resumed from waiting with a
session id. -/
theorem runStep_endTurn_eq (r : RunnerCfg) (resumed : Bool) (st : RunnerStore)
    (prompt sessionID : String) (turns : Nat) (o : claudeOutput)
    (ctr : TurnResult) (he : o.isError = false) (h1 : o.stopReason = "end_turn") :
    runStep r resumed st prompt sessionID turns (.ok o) ctr =
      .halt
        (if resumed ∧ (if o.sessionID = "" then sessionID else o.sessionID) ≠ "" then
          commitRun r (dispatchedStore st prompt sessionID turns o "done")
            (if o.sessionID = "" then sessionID else o.sessionID) (turns + 1) ctr
         else dispatchedStore st prompt sessionID turns o "done") := by
  simp [runStep, he, h1, dispatchedStore, RunnerStore.recordCall, RunnerStore.saveTurn,
    RunnerStore.updateStatus, RunnerStore.updateResult, RunnerStore.insertEvent,
    RunnerStore.accumulateUsage, usageOf]

/-- The `subtype=success` step in closed form (unknown or empty stop
reason): the task is marked `done` and the auto-commit may run. -/
theorem runStep_success_eq (r : RunnerCfg) (resumed : Bool) (st : RunnerStore)
    (prompt sessionID : String) (turns : Nat) (o : claudeOutput)
    (ctr : TurnResult) (he : o.isError = false) (h1 : o.stopReason ≠ "end_turn")
    (h2 : o.stopReason ≠ "max_tokens") (h3 : o.stopReason ≠ "pause_turn")
    (h4 : o.subtype = "success") :
    runStep r resumed st prompt sessionID turns (.ok o) ctr =
      .halt
        (if resumed ∧ (if o.sessionID = "" then sessionID else o.sessionID) ≠ "" then
          commitRun r (dispatchedStore st prompt sessionID turns o "done")
            (if o.sessionID = "" then sessionID else o.sessionID) (turns + 1) ctr
         else dispatchedStore st prompt sessionID turns o "done") := by
  simp [runStep, he, h1, h2, h3, h4, dispatchedStore, RunnerStore.recordCall,
    RunnerStore.saveTurn, RunnerStore.updateStatus, RunnerStore.updateResult,
    RunnerStore.insertEvent, RunnerStore.accumulateUsage, usageOf]

/-- The waiting step in closed form (unknown or empty stop reason, subtype
not `success`). -/
theorem runStep_waiting_eq (r : RunnerCfg) (resumed : Bool) (st : RunnerStore)
    (prompt sessionID : String) (turns : Nat) (o : claudeOutput)
    (ctr : TurnResult) (he : o.isError = false) (h1 : o.stopReason ≠ "end_turn")
    (h2 : o.stopReason ≠ "max_tokens") (h3 : o.stopReason ≠ "pause_turn")
    (h4 : o.subtype ≠ "success") :
    runStep r resumed st prompt sessionID turns (.ok o) ctr =
      .halt (dispatchedStore st prompt sessionID turns o "waiting") := by
  simp [runStep, he, h1, h2, h3, h4, dispatchedStore, RunnerStore.recordCall,
    RunnerStore.saveTurn, RunnerStore.updateStatus, RunnerStore.updateResult,
    RunnerStore.insertEvent, RunnerStore.accumulateUsage, usageOf]

/-- Turn-counter facts about one loop iteration: a halting step leaves the
counter at least `turns + 1`; a continuing step leaves exactly `turns + 1`
and hands `turns + 1` to the next iteration. -/
theorem runStep_turns_ge (r : RunnerCfg) (resumed : Bool) (st : RunnerStore)
    (prompt sessionID : String) (turns : Nat) (tr ctr : TurnResult) :
    (∀ st', runStep r resumed st prompt sessionID turns tr ctr = .halt st' →
        turns + 1 ≤ st'.task.turns) ∧
    (∀ st' p' s' t', runStep r resumed st prompt sessionID turns tr ctr =
        .next st' p' s' t' → st'.task.turns = turns + 1 ∧ t' = turns + 1) := by
  cases tr with
  | err m =>
      refine ⟨?_, ?_⟩
      · intro st' heq
        rw [runStep_err_eq] at heq
        injection heq with h
        rw [← h]
      · intro st' p' s' t' heq
        rw [runStep_err_eq] at heq
        exact StepOut.noConfusion heq
  | ok o =>
      have hc : ∀ tgt, turns + 1 ≤
          (if resumed ∧ (if o.sessionID = "" then sessionID else o.sessionID) ≠ "" then
            commitRun r (dispatchedStore st prompt sessionID turns o tgt)
              (if o.sessionID = "" then sessionID else o.sessionID) (turns + 1) ctr
           else dispatchedStore st prompt sessionID turns o tgt).task.turns := by
        intro tgt
        by_cases hcc : resumed ∧ (if o.sessionID = "" then sessionID else o.sessionID) ≠ ""
        · rw [if_pos hcc]
          rcases commitRun_turns r (dispatchedStore st prompt sessionID turns o tgt)
              (if o.sessionID = "" then sessionID else o.sessionID) (turns + 1) ctr with hh | hh
          · rw [hh]
            exact Nat.le_refl _
          · rw [hh]
            omega
        · rw [if_neg hcc]
          exact Nat.le_refl _
      by_cases he : o.isError = true
      · refine ⟨?_, ?_⟩
        · intro st' heq
          rw [runStep_isError_eq r resumed st prompt sessionID turns o ctr he] at heq
          injection heq with h
          rw [← h]
        · intro st' p' s' t' heq
          rw [runStep_isError_eq r resumed st prompt sessionID turns o ctr he] at heq
          exact StepOut.noConfusion heq
      · have he' : o.isError = false := by simpa using he
        by_cases h1 : o.stopReason = "end_turn"
        · refine ⟨?_, ?_⟩
          · intro st' heq
            rw [runStep_endTurn_eq r resumed st prompt sessionID turns o ctr he' h1] at heq
            injection heq with h
            rw [← h]
            exact hc "done"
          · intro st' p' s' t' heq
            rw [runStep_endTurn_eq r resumed st prompt sessionID turns o ctr he' h1] at heq
            exact StepOut.noConfusion heq
        · by_cases h2 : o.stopReason = "max_tokens" ∨ o.stopReason = "pause_turn"
          · refine ⟨?_, ?_⟩
            · intro st' heq
              rw [runStep_auto r resumed st prompt sessionID turns o ctr he' h2] at heq
              exact StepOut.noConfusion heq
            · intro st' p' s' t' heq
              rw [runStep_auto r resumed st prompt sessionID turns o ctr he' h2] at heq
              injection heq with e1 e2 e3 e4
              refine ⟨?_, e4.symm⟩
              rw [← e1]
          · push_neg at h2
            obtain ⟨h2a, h2b⟩ := h2
            by_cases h4 : o.subtype = "success"
            · refine ⟨?_, ?_⟩
              · intro st' heq
                rw [runStep_success_eq r resumed st prompt sessionID turns o ctr
                  he' h1 h2a h2b h4] at heq
                injection heq with h
                rw [← h]
                exact hc "done"
              · intro st' p' s' t' heq
                rw [runStep_success_eq r resumed st prompt sessionID turns o ctr
                  he' h1 h2a h2b h4] at heq
                exact StepOut.noConfusion heq
            · refine ⟨?_, ?_⟩
              · intro st' heq
                rw [runStep_waiting_eq r resumed st prompt sessionID turns o ctr
                  he' h1 h2a h2b h4] at heq
                injection heq with h
                rw [← h]
                exact Nat.le_refl _
              · intro st' p' s' t' heq
                rw [runStep_waiting_eq r resumed st prompt sessionID turns o ctr
                  he' h1 h2a h2b h4] at heq
                exact StepOut.noConfusion heq

/-- The loop never decreases the stored turn counter, given that the loop's
running counter dominates it (as it does at entry). -/
theorem runLoop_turns_ge (r : RunnerCfg) (resumed : Bool) (ctr : TurnResult) :
    ∀ (script : List TurnResult) (st : RunnerStore) (prompt sessionID : String)
      (turns : Nat), st.task.turns ≤ turns →
      st.task.turns ≤ (runLoop r resumed script ctr st prompt sessionID turns).task.turns := by
  intro script
  induction script with
  | nil => intro st _ _ _ _; exact le_refl _
  | cons tr rest ih =>
      intro st prompt sessionID turns hle
      rw [runLoop]
      cases heq : runStep r resumed st prompt sessionID turns tr ctr with
      | halt st' =>
          have h1 := (runStep_turns_ge r resumed st prompt sessionID turns tr ctr).1 st' heq
          exact le_trans hle (le_trans (Nat.le_succ _) h1)
      | next st' p' s' t' =>
          have h2 := (runStep_turns_ge r resumed st prompt sessionID turns tr ctr).2
            st' p' s' t' heq
          have h3 := ih st' p' s' t' (by omega)
          have h4 : turns + 1 ≤ (runLoop r resumed rest ctr st' p' s' t').task.turns := by
            omega
          exact le_trans hle (le_trans (Nat.le_succ _) h4)

/-- C9: when a turn's output has `is_error` set, the loop transitions the
task to `failed` and halts before the stop-reason dispatch — even when the
stop reason is `end_turn` — after persisting the turn's output event,
result, session id, turn count, savedturn artifact and usage. -/
theorem is_error_fails_before_dispatch (r : RunnerCfg) (resumed : Bool)
    (st : RunnerStore) (prompt sessionID : String) (turns : Nat)
    (o : claudeOutput) (ctr : TurnResult) (he : o.isError = true) :
    ∃ st', runStep r resumed st prompt sessionID turns (.ok o) ctr = .halt st' ∧
      st'.task.status = "failed" ∧
      st'.task.result = some o.result ∧
      st'.task.sessionID = some (if o.sessionID = "" then sessionID else o.sessionID) ∧
      st'.task.stopReason = some o.stopReason ∧
      st'.task.turns = turns + 1 ∧
      st'.task.usage.inputTokens = st.task.usage.inputTokens + o.usage.inputTokens ∧
      st'.savedTurns = st.savedTurns ++ [turns + 1] ∧
      st'.events = st.events ++
        [⟨"output", [("result", o.result), ("stop_reason", o.stopReason),
                     ("session_id", o.sessionID)]⟩,
         ⟨"state_change", [("from", "in_progress"), ("to", "failed")]⟩] :=
  ⟨_, runStep_isError_eq r resumed st prompt sessionID turns o ctr he,
    rfl, rfl, rfl, rfl, rfl, rfl, rfl, rfl⟩

/-- Witness for C9: `is_error=true` with `stop_reason=end_turn` yields
`failed`, not `done`. -/
theorem is_error_fails_before_dispatch_witness :
    ∃ st', runStep ⟨""⟩ false
        ⟨⟨"in_progress", none, none, none, 0, ⟨0, 0, 0, 0, 0⟩⟩, [], [], []⟩
        "p" "" 0 (.ok ⟨"r", "s1", "end_turn", "", true, 3, ⟨1, 2, 0, 0⟩⟩)
        (.err "x") = .halt st' ∧ st'.task.status = "failed" := by
  obtain ⟨st', heq, hstat, -⟩ := is_error_fails_before_dispatch ⟨""⟩ false
    ⟨⟨"in_progress", none, none, none, 0, ⟨0, 0, 0, 0, 0⟩⟩, [], [], []⟩
    "p" "" 0 ⟨"r", "s1", "end_turn", "", true, 3, ⟨1, 2, 0, 0⟩⟩ (.err "x") rfl
  exact ⟨st', heq, hstat⟩

/-- C1: with `is_error` unset and the stop reason not an auto-continue one,
the loop halts, transitioning an `in_progress` task to `done` on `end_turn`,
to `done` on an unknown or empty stop reason with `subtype=success`, and to
`waiting` otherwise, inserting the matching `state_change` event. -/
theorem run_dispatch_stop_reason (r : RunnerCfg) (resumed : Bool)
    (st : RunnerStore) (prompt sessionID : String) (turns : Nat)
    (o : claudeOutput) (ctr : TurnResult)
    (hin : st.task.status = "in_progress") (he : o.isError = false)
    (hmt : o.stopReason ≠ "max_tokens") (hpt : o.stopReason ≠ "pause_turn") :
    ∃ st' tail,
      runStep r resumed st prompt sessionID turns (.ok o) ctr = .halt st' ∧
      st'.task.status =
        (if o.stopReason = "end_turn" then "done"
         else if o.subtype = "success" then "done" else "waiting") ∧
      st'.events = st.events ++ tail ∧
      (⟨"state_change",
        [("from", "in_progress"),
         ("to", if o.stopReason = "end_turn" then "done"
                else if o.subtype = "success" then "done" else "waiting")]⟩ :
        TaskEvent) ∈ tail := by
  have key : ∀ tgt : String,
      (if resumed ∧ (if o.sessionID = "" then sessionID else o.sessionID) ≠ "" then
          commitRun r (dispatchedStore st prompt sessionID turns o tgt)
            (if o.sessionID = "" then sessionID else o.sessionID) (turns + 1) ctr
        else dispatchedStore st prompt sessionID turns o tgt).task.status = tgt ∧
      ∃ tail,
        (if resumed ∧ (if o.sessionID = "" then sessionID else o.sessionID) ≠ "" then
            commitRun r (dispatchedStore st prompt sessionID turns o tgt)
              (if o.sessionID = "" then sessionID else o.sessionID) (turns + 1) ctr
          else dispatchedStore st prompt sessionID turns o tgt).events =
          st.events ++ tail ∧
        (⟨"state_change", [("from", "in_progress"), ("to", tgt)]⟩ : TaskEvent) ∈ tail := by
    intro tgt
    by_cases hcc : resumed ∧ (if o.sessionID = "" then sessionID else o.sessionID) ≠ ""
    · rw [if_pos hcc]
      refine ⟨?_, ?_⟩
      · rw [commitRun_status]
        rfl
      · obtain ⟨l, hl⟩ := commitRun_events r (dispatchedStore st prompt sessionID turns o tgt)
          (if o.sessionID = "" then sessionID else o.sessionID) (turns + 1) ctr
        refine ⟨[⟨"output", [("result", o.result), ("stop_reason", o.stopReason),
            ("session_id", o.sessionID)]⟩,
          ⟨"state_change", [("from", "in_progress"), ("to", tgt)]⟩] ++ l, ?_, by simp⟩
        rw [hl]
        simp [dispatchedStore]
    · rw [if_neg hcc]
      exact ⟨rfl,
        [⟨"output", [("result", o.result), ("stop_reason", o.stopReason),
            ("session_id", o.sessionID)]⟩,
         ⟨"state_change", [("from", "in_progress"), ("to", tgt)]⟩], rfl, by simp⟩
  by_cases h1 : o.stopReason = "end_turn"
  · obtain ⟨hstat, tail, htail, hmem⟩ := key "done"
    refine ⟨_, tail,
      runStep_endTurn_eq r resumed st prompt sessionID turns o ctr he h1, ?_, htail, ?_⟩
    · simp only [h1, if_true, reduceIte]
      exact hstat
    · simp only [h1, if_true, reduceIte]
      exact hmem
  · by_cases h4 : o.subtype = "success"
    · obtain ⟨hstat, tail, htail, hmem⟩ := key "done"
      refine ⟨_, tail,
        runStep_success_eq r resumed st prompt sessionID turns o ctr he h1 hmt hpt h4,
        ?_, htail, ?_⟩
      · simp only [h1, h4, if_false, if_true, reduceIte]
        exact hstat
      · simp only [h1, h4, if_false, if_true, reduceIte]
        exact hmem
    · refine ⟨dispatchedStore st prompt sessionID turns o "waiting",
        [⟨"output", [("result", o.result), ("stop_reason", o.stopReason),
            ("session_id", o.sessionID)]⟩,
         ⟨"state_change", [("from", "in_progress"), ("to", "waiting")]⟩],
        runStep_waiting_eq r resumed st prompt sessionID turns o ctr he h1 hmt hpt h4,
        ?_, rfl, ?_⟩
      · simp only [h1, h4, if_false]
        rfl
      · simp only [h1, h4, if_false]
        simp

/-- Witness for C1: a concrete `end_turn` turn on an `in_progress` task
halts with status `done`. -/
theorem run_dispatch_stop_reason_witness :
    ∃ st', runStep ⟨""⟩ false
        ⟨⟨"in_progress", none, none, none, 0, ⟨0, 0, 0, 0, 0⟩⟩, [], [], []⟩
        "p" "" 0 (.ok ⟨"ok", "s1", "end_turn", "", false, 1, ⟨1, 1, 0, 0⟩⟩)
        (.err "x") = .halt st' ∧ st'.task.status = "done" := by
  obtain ⟨st', tail, heq, hstat, -, -⟩ := run_dispatch_stop_reason ⟨""⟩ false
    ⟨⟨"in_progress", none, none, none, 0, ⟨0, 0, 0, 0, 0⟩⟩, [], [], []⟩
    "p" "" 0 ⟨"ok", "s1", "end_turn", "", false, 1, ⟨1, 1, 0, 0⟩⟩ (.err "x")
    rfl rfl (by decide) (by decide)
  exact ⟨st', heq, by simpa using hstat⟩

/-- C4: on `max_tokens` or `pause_turn` without `is_error`, the loop
re-invokes the container in the same loop with an empty prompt and the
current session id, increments the turn counter, and changes neither the
status nor the event log beyond the `output` event; across any all-auto
script the status is unchanged, only `output` events are appended, and every
re-invocation after the first uses the empty prompt. -/
theorem auto_continue_no_state_change (r : RunnerCfg) (resumed : Bool)
    (st : RunnerStore) (prompt sessionID : String) (turns : Nat)
    (o : claudeOutput) (ctr : TurnResult) (he : o.isError = false)
    (hsr : o.stopReason = "max_tokens" ∨ o.stopReason = "pause_turn") :
    (∃ st', runStep r resumed st prompt sessionID turns (.ok o) ctr =
        .next st' "" (if o.sessionID = "" then sessionID else o.sessionID) (turns + 1) ∧
      st'.task.status = st.task.status ∧
      st'.task.turns = turns + 1 ∧
      st'.events = st.events ++
        [⟨"output", [("result", o.result), ("stop_reason", o.stopReason),
                     ("session_id", o.sessionID)]⟩] ∧
      st'.calls = st.calls ++ [(prompt, sessionID)]) ∧
    (∀ script : List TurnResult, (∀ tr ∈ script, AutoContinue tr) →
      (runLoop r resumed script ctr st prompt sessionID turns).task.status =
          st.task.status ∧
      (∃ tail, (runLoop r resumed script ctr st prompt sessionID turns).events =
          st.events ++ tail ∧ ∀ e ∈ tail, e.kind = "output") ∧
      (∃ ctail, (runLoop r resumed script ctr st prompt sessionID turns).calls =
          st.calls ++ ctail ∧ ∀ c ∈ ctail, c.1 = prompt ∨ c.1 = "")) := by
  constructor
  · exact ⟨_, runStep_auto r resumed st prompt sessionID turns o ctr he hsr,
      rfl, rfl, rfl, rfl⟩
  · intro script hall
    exact runLoop_auto r resumed ctr script hall st prompt sessionID turns

/-- Witness for C4: a concrete `max_tokens` turn continues with an empty
prompt, the new session id, an incremented counter and an unchanged
status. -/
theorem auto_continue_no_state_change_witness :
    ∃ st', runStep ⟨""⟩ false
        ⟨⟨"in_progress", none, none, none, 0, ⟨0, 0, 0, 0, 0⟩⟩, [], [], []⟩
        "p" "s0" 0 (.ok ⟨"partial", "s2", "max_tokens", "", false, 1, ⟨1, 1, 0, 0⟩⟩)
        (.err "x") = .next st' "" "s2" 1 ∧ st'.task.status = "in_progress" := by
  obtain ⟨⟨st', heq, hstat, -, -, -⟩, -⟩ := auto_continue_no_state_change ⟨""⟩ false
    ⟨⟨"in_progress", none, none, none, 0, ⟨0, 0, 0, 0, 0⟩⟩, [], [], []⟩
    "p" "s0" 0 ⟨"partial", "s2", "max_tokens", "", false, 1, ⟨1, 1, 0, 0⟩⟩ (.err "x")
    rfl (Or.inl rfl)
  exact ⟨st', by simpa using heq, by simpa using hstat⟩

/-- C8 counterexample: `ResetTaskForRetry` is a Store operation that
decreases the turns counter (2 → 0), refuting "turns never decreases across
any single Store or Runner operation". -/
theorem turns_decrease_on_retry_reset :
    (resetTaskForRetry
        ⟨"p", [], "done", false, some "r", some "end_turn", 2, [], "", [], []⟩
        "p2" true).turns <
      (⟨"p", [], "done", false, some "r", some "end_turn", 2, [], "", [], []⟩ :
        StoreTask).turns := by
  decide

/-- C8 amended: the turns counter never decreases across a Runner `Run`
invocation; the one Store operation that lowers it is `ResetTaskForRetry`,
which always resets it to 0. -/
theorem turns_monotone_amended :
    (∀ (r : RunnerCfg) (script : List TurnResult) (ctr : TurnResult)
        (st : RunnerStore) (prompt sessionID : String),
      st.task.turns ≤ (runEmbed r script ctr st prompt sessionID).task.turns) ∧
    (∀ (t : StoreTask) (newPrompt : String) (freshStart : Bool),
      (resetTaskForRetry t newPrompt freshStart).turns = 0) := by
  constructor
  · intro r script ctr st prompt sessionID
    exact runLoop_turns_ge r _ ctr script st prompt sessionID st.task.turns (le_refl _)
  · intro t newPrompt freshStart
    rfl

/-- C5: the `runContainer` decision tail returns the parsed output with a
nil error exactly when the (trimmed) stdout is non-empty and parses —
independently of the subprocess's exit status — and returns a non-nil error
precisely when stdout is empty or fails to parse.  The hypothesis pins the
one fact the model needs about `json.Unmarshal`: the empty document does not
parse. -/
theorem runContainer_output_over_exit_code (parse : String → Option claudeOutput)
    (stdout stderr : String) (runErr : Option RunErr)
    (hempty : parse "" = none) :
    (∀ o, parse (trimSpace stdout) = some o →
        runContainerTail parse stdout stderr runErr = .ok o) ∧
    ((∃ e, runContainerTail parse stdout stderr runErr = .error e) ↔
        (trimSpace stdout = "" ∨ parse (trimSpace stdout) = none)) := by
  have herrTotal : ∀ x : Except String claudeOutput,
      (∀ o, x ≠ .ok o) → ∃ e, x = .error e := by
    intro x hx
    cases x with
    | error e => exact ⟨e, rfl⟩
    | ok o => exact absurd rfl (hx o)
  by_cases h : trimSpace stdout = ""
  · constructor
    · intro o ho
      rw [h, hempty] at ho
      exact Option.noConfusion ho
    · refine ⟨fun _ => Or.inl h, fun _ => ?_⟩
      apply herrTotal
      intro o
      unfold runContainerTail
      rcases runErr with _ | e
      · simp [h]
      · cases e <;> simp [h]
  · by_cases hp : parse (trimSpace stdout) = none
    · constructor
      · intro o ho
        rw [hp] at ho
        exact Option.noConfusion ho
      · refine ⟨fun _ => Or.inr hp, fun _ => ?_⟩
        apply herrTotal
        intro o
        unfold runContainerTail
        rcases runErr with _ | e
        · simp [h, hp]
        · cases e <;> simp [h, hp]
    · obtain ⟨o, ho⟩ := Option.ne_none_iff_exists'.mp hp
      have hok : runContainerTail parse stdout stderr runErr = .ok o := by
        unfold runContainerTail
        simp [h, ho]
      constructor
      · intro o' ho'
        rw [ho] at ho'
        injection ho' with hh
        rw [← hh]
        exact hok
      · constructor
        · rintro ⟨e, he⟩
          rw [hok] at he
          exact Except.noConfusion he
        · rintro (h' | h')
          · exact absurd h' h
          · exact absurd h' hp

/-- Witness for C5: a parsable stdout with a non-zero exit code still yields
the parsed output and a nil error. -/
theorem runContainer_output_over_exit_code_witness :
    runContainerTail (fun s => if s = "RESULT" then
        some ⟨"ok", "s1", "end_turn", "", false, 0, ⟨0, 0, 0, 0⟩⟩ else none)
      " RESULT " "boom" (some (.exit 2)) =
      .ok ⟨"ok", "s1", "end_turn", "", false, 0, ⟨0, 0, 0, 0⟩⟩ :=
  (runContainer_output_over_exit_code
      (fun s => if s = "RESULT" then
        some ⟨"ok", "s1", "end_turn", "", false, 0, ⟨0, 0, 0, 0⟩⟩ else none)
      " RESULT " "boom" (some (.exit 2)) (by decide)).1
    ⟨"ok", "s1", "end_turn", "", false, 0, ⟨0, 0, 0, 0⟩⟩ (by decide)

/-- Membership in a guarded singleton-or-empty list lands in the list. -/
theorem mem_ite_list {α : Type} (c : Prop) [Decidable c] (l : List α) (e : α)
    (h : e ∈ (if c then l else [])) : e ∈ l := by
  split at h
  · exact h
  · exact absurd h (List.not_mem_nil e)

/-- The conflict resolver emits only phase-2-benign effects. -/
theorem resolveConflictsM_benign (t a : Nat) (ro : ResolveOutcome) :
    ∀ e ∈ (resolveConflictsM t a ro).1, phase2Benign e := by
  cases ro with
  | driverErr m =>
      intro e he
      simp only [resolveConflictsM, List.mem_cons, List.not_mem_nil, or_false] at he
      rcases he with rfl | rfl <;> trivial
  | agentErr m =>
      intro e he
      simp only [resolveConflictsM, List.mem_cons, List.not_mem_nil, or_false] at he
      rcases he with rfl | rfl <;> trivial
  | ok m =>
      intro e he
      simp only [resolveConflictsM, List.mem_cons, List.not_mem_nil, or_false] at he
      rcases he with rfl | rfl | rfl <;> trivial

/-- The rebase retry loop emits only phase-2-benign effects. -/
theorem rebaseRetryGo_benign (maxR turns : Nat) (repo defB : String)
    (rebase : Nat → RebaseOutcome) (resolver : Nat → ResolveOutcome) :
    ∀ fuel attempt, ∀ e ∈ (rebaseRetryGo maxR turns repo defB rebase resolver fuel attempt).1,
      phase2Benign e := by
  intro fuel
  induction fuel with
  | zero => intro attempt e he; simp [rebaseRetryGo] at he
  | succ fuel ih =>
      intro attempt e he
      rw [rebaseRetryGo] at he
      rcases hra : rebase attempt with _ | m | m <;> simp only [hra] at he
      · simp only [List.mem_cons, List.not_mem_nil, or_false] at he
        rcases he with rfl | rfl <;> trivial
      · by_cases hm : attempt = maxR
        · rw [if_pos hm] at he
          simp only [List.mem_cons, List.not_mem_nil, or_false] at he
          rcases he with rfl | rfl <;> trivial
        · rw [if_neg hm] at he
          rcases hr : (resolveConflictsM turns attempt (resolver attempt)).2 with _ | m2 <;>
            simp only [hr] at he
          · simp only [List.mem_append, List.mem_cons, List.not_mem_nil, or_false,
              or_assoc] at he
            rcases he with rfl | rfl | rfl | he | he
            · trivial
            · trivial
            · trivial
            · exact resolveConflictsM_benign turns attempt (resolver attempt) e he
            · exact ih (attempt + 1) e he
          · simp only [List.mem_append, List.mem_cons, List.not_mem_nil, or_false,
              or_assoc] at he
            rcases he with rfl | rfl | rfl | he
            · trivial
            · trivial
            · trivial
            · exact resolveConflictsM_benign turns attempt (resolver attempt) e he
      · by_cases hm : attempt = maxR <;> [rw [if_pos hm] at he; rw [if_neg hm] at he] <;>
          (simp only [List.mem_cons, List.not_mem_nil, or_false] at he;
           rcases he with rfl | rfl <;> trivial)

/-- The full retry loop emits only phase-2-benign effects. -/
theorem rebaseRetryLoop_benign (maxR turns : Nat) (repo defB : String)
    (rebase : Nat → RebaseOutcome) (resolver : Nat → ResolveOutcome) :
    ∀ e ∈ (rebaseRetryLoop maxR turns repo defB rebase resolver).1, phase2Benign e := by
  intro e he
  exact rebaseRetryGo_benign maxR turns repo defB rebase resolver maxR 1 e he

/-- Per-worktree phase-2 processing emits only phase-2-benign effects. -/
theorem processWorktree_benign (maxR turns : Nat) (branchName : String)
    (wc : WtCase) :
    ∀ e ∈ (processWorktree maxR turns branchName wc).1, phase2Benign e := by
  intro e he
  unfold processWorktree at he
  by_cases hg : wc.isGit = true
  · simp only [hg, Bool.not_true, Bool.false_eq_true, if_false] at he
    rcases hdb : wc.defBranch with m | defB <;> simp only [hdb] at he
    · simp at he
    · by_cases hah : wc.ahead = true
      · simp only [hah, Bool.not_true, Bool.false_eq_true, if_false] at he
        rcases hl : (rebaseRetryLoop maxR turns wc.repoPath defB wc.rebase wc.resolver).2
            with _ | m <;> simp only [hl] at he
        · rcases hff : wc.ffErr with _ | m <;> simp only [hff] at he
          · rcases hmh : wc.mergedHash with _ | h <;> simp only [hmh] at he
            · simp only [List.mem_append, List.mem_singleton, or_assoc] at he
              rcases he with he | rfl
              · exact rebaseRetryLoop_benign maxR turns wc.repoPath defB wc.rebase
                  wc.resolver e he
              · trivial
            · simp only [List.mem_append, List.mem_singleton, or_assoc] at he
              rcases he with he | rfl | rfl
              · exact rebaseRetryLoop_benign maxR turns wc.repoPath defB wc.rebase
                  wc.resolver e he
              · trivial
              · trivial
          · simp only [List.mem_append, List.mem_singleton, or_assoc] at he
            rcases he with he | rfl
            · exact rebaseRetryLoop_benign maxR turns wc.repoPath defB wc.rebase
                wc.resolver e he
            · trivial
        · exact rebaseRetryLoop_benign maxR turns wc.repoPath defB wc.rebase wc.resolver e he
      · have hah' : wc.ahead = false := by simpa using hah
        simp only [hah', Bool.not_false, if_true, List.mem_singleton] at he
        subst he
        trivial
  · have hg' : wc.isGit = false := by simpa using hg
    simp only [hg', Bool.not_false, if_true] at he
    rcases hex : wc.extractErr with _ | m <;> simp only [hex] at he
    · simp only [List.mem_append, List.mem_singleton, or_assoc] at he
      rcases he with rfl | rfl <;> trivial
    · simp only [List.mem_singleton] at he
      subst he
      trivial

/-- Phase 2 as a whole emits only phase-2-benign effects. -/
theorem rebaseAndMergeM_benign (maxR turns : Nat) (branchName : String) :
    ∀ wcs : List WtCase, ∀ e ∈ (rebaseAndMergeM maxR turns branchName wcs).1,
      phase2Benign e := by
  intro wcs
  induction wcs with
  | nil => intro e he; simp [rebaseAndMergeM] at he
  | cons wc rest ih =>
      intro e he
      rw [rebaseAndMergeM] at he
      rcases hw : (processWorktree maxR turns branchName wc).2.2.2 with _ | m <;>
        rw [hw] at he
      · simp only [List.mem_append] at he
        rcases he with he | he
        · exact processWorktree_benign maxR turns branchName wc e he
        · exact ih e he
      · exact processWorktree_benign maxR turns branchName wc e he

/-- C6: the commit pipeline never changes the task's status — no
`UpdateTaskStatus` effect appears in any execution — and the one fatal
failure (a phase-2 rebase/merge error) makes the pipeline end with the
`error` event, skipping phase 3 and phase 4 entirely: no commit-hash or
base-hash persistence, no `PROGRESS.md` write, no worktree cleanup. -/
theorem commit_pipeline_frame (maxR turns : Nat) (branchName : String)
    (wcs : List WtCase) :
    (∀ s, Eff.updateStatus s ∉ commitPipeline maxR turns branchName wcs) ∧
    (∀ m, (rebaseAndMergeM maxR turns branchName wcs).2.2.2 = some m →
      commitPipeline maxR turns branchName wcs =
        [.insertEvent "output" [("result", "Phase 1/4: Staging and committing changes...")],
         .insertEvent "output" [("result", "Phase 2/4: Rebasing and merging into default branch...")]] ++
        (rebaseAndMergeM maxR turns branchName wcs).1 ++
        [.insertEvent "error" [("error", String.append "rebase/merge failed: " m)]] ∧
      Eff.writeProgress ∉ commitPipeline maxR turns branchName wcs ∧
      Eff.cleanupWorktrees ∉ commitPipeline maxR turns branchName wcs ∧
      (∀ ch, Eff.updateCommitHashes ch ∉ commitPipeline maxR turns branchName wcs) ∧
      (∀ bh, Eff.updateBaseCommitHashes bh ∉ commitPipeline maxR turns branchName wcs)) := by
  have hben := rebaseAndMergeM_benign maxR turns branchName wcs
  constructor
  · intro s hs
    unfold commitPipeline at hs
    rcases herr : (rebaseAndMergeM maxR turns branchName wcs).2.2.2 with _ | m <;>
      simp only [herr] at hs
    · by_cases hc1 : (rebaseAndMergeM maxR turns branchName wcs).2.1.length > 0 <;>
        by_cases hc2 : (rebaseAndMergeM maxR turns branchName wcs).2.2.1.length > 0 <;>
        simp only [hc1, hc2, if_true, if_false] at hs <;>
        simp at hs <;>
        exact hben _ hs
    · simp at hs
      exact hben _ hs
  · intro m herr
    have habort : commitPipeline maxR turns branchName wcs =
        [.insertEvent "output" [("result", "Phase 1/4: Staging and committing changes...")],
         .insertEvent "output" [("result", "Phase 2/4: Rebasing and merging into default branch...")]] ++
        (rebaseAndMergeM maxR turns branchName wcs).1 ++
        [.insertEvent "error" [("error", String.append "rebase/merge failed: " m)]] := by
      unfold commitPipeline
      simp only [herr]
    refine ⟨habort, ?_, ?_, ?_, ?_⟩
    · intro hmem
      rw [habort] at hmem
      simp at hmem
      exact hben _ hmem
    · intro hmem
      rw [habort] at hmem
      simp at hmem
      exact hben _ hmem
    · intro ch hmem
      rw [habort] at hmem
      simp at hmem
      exact hben _ hmem
    · intro bh hmem
      rw [habort] at hmem
      simp at hmem
      exact hben _ hmem

/-- Witness for C6: a concrete one-worktree pipeline whose first rebase
fails with a non-conflict error never updates the status and never reaches
phase 3. -/
theorem commit_pipeline_frame_witness :
    Eff.updateStatus "done" ∉ commitPipeline 2 0 "task/ab"
      [⟨"/r", true, none, none, .ok "main", true, fun _ => .fail "boom",
        fun _ => .ok "r", none, none, none⟩] ∧
    Eff.writeProgress ∉ commitPipeline 2 0 "task/ab"
      [⟨"/r", true, none, none, .ok "main", true, fun _ => .fail "boom",
        fun _ => .ok "r", none, none, none⟩] := by
  constructor
  · exact (commit_pipeline_frame 2 0 "task/ab"
      [⟨"/r", true, none, none, .ok "main", true, fun _ => .fail "boom",
        fun _ => .ok "r", none, none, none⟩]).1 "done"
  · exact ((commit_pipeline_frame 2 0 "task/ab"
      [⟨"/r", true, none, none, .ok "main", true, fun _ => .fail "boom",
        fun _ => .ok "r", none, none, none⟩]).2 "rebase /r: boom" rfl).2.1

/-- `resolverCount` distributes over append. -/
theorem resolverCount_append (l1 l2 : List Eff) :
    resolverCount (l1 ++ l2) = resolverCount l1 + resolverCount l2 := by
  simp [resolverCount, List.filter_append]

/-- `resolverCount` ignores events. -/
theorem resolverCount_cons_event (k : String) (d : List (String × String))
    (l : List Eff) : resolverCount (.insertEvent k d :: l) = resolverCount l := rfl

/-- `resolverCount` ignores rebase markers. -/
theorem resolverCount_cons_rebase (a : Nat) (l : List Eff) :
    resolverCount (.gitRebase a :: l) = resolverCount l := rfl

/-- `resolverCount` ignores saved turn outputs. -/
theorem resolverCount_cons_save (n : Nat) (l : List Eff) :
    resolverCount (.saveTurnOutput n :: l) = resolverCount l := rfl

/-- `resolverCount` counts resolver runs. -/
theorem resolverCount_cons_resolver (a : Nat) (l : List Eff) :
    resolverCount (.resolverRun a :: l) = resolverCount l + 1 := by
  simp [resolverCount, List.filter_cons]

/-- The empty trace has no resolver runs. -/
theorem resolverCount_nil : resolverCount [] = 0 := rfl

/-- One resolver invocation contributes exactly one resolver run. -/
theorem resolveConflictsM_count (t a : Nat) (ro : ResolveOutcome) :
    resolverCount (resolveConflictsM t a ro).1 = 1 := by
  cases ro <;> rfl

/-- A resolver run inside `resolveConflictsM`'s trace carries that
invocation's attempt number. -/
theorem resolveConflictsM_resolver_mem (t att : Nat) (ro : ResolveOutcome)
    (a : Nat) (h : Eff.resolverRun a ∈ (resolveConflictsM t att ro).1) :
    a = att := by
  cases ro <;> simp [resolveConflictsM] at h <;> exact h

/-- `resolveConflictsM` never emits a rebase marker. -/
theorem resolveConflictsM_no_rebase (t att : Nat) (ro : ResolveOutcome)
    (a : Nat) : Eff.gitRebase a ∉ (resolveConflictsM t att ro).1 := by
  cases ro <;> simp [resolveConflictsM]

/-- The retry loop runs the resolver at most once per remaining attempt. -/
theorem rebaseRetryGo_count_le (maxR turns : Nat) (repo defB : String)
    (rebase : Nat → RebaseOutcome) (resolver : Nat → ResolveOutcome) :
    ∀ fuel attempt,
      resolverCount (rebaseRetryGo maxR turns repo defB rebase resolver fuel attempt).1 ≤
        fuel := by
  intro fuel
  induction fuel with
  | zero => intro attempt; simp [rebaseRetryGo, resolverCount_nil]
  | succ fuel ih =>
      intro attempt
      rw [rebaseRetryGo]
      rcases hra : rebase attempt with _ | m | m <;> simp only [hra]
      · simp only [resolverCount_cons_event, resolverCount_cons_rebase, resolverCount_nil]
        omega
      · by_cases hm : attempt = maxR
        · rw [if_pos hm]
          simp only [resolverCount_cons_event, resolverCount_cons_rebase, resolverCount_nil]
          omega
        · rw [if_neg hm]
          rcases hr : (resolveConflictsM turns attempt (resolver attempt)).2 with _ | m2 <;>
            simp only [hr]
          · have hrec := ih (attempt + 1)
            simp only [resolverCount_append, resolverCount_cons_event,
              resolverCount_cons_rebase, resolverCount_nil,
              resolveConflictsM_count]
            omega
          · simp only [resolverCount_append, resolverCount_cons_event,
              resolverCount_cons_rebase, resolverCount_nil,
              resolveConflictsM_count]
            omega
      · by_cases hm : attempt = maxR <;> [rw [if_pos hm]; rw [if_neg hm]] <;>
          simp only [resolverCount_cons_event, resolverCount_cons_rebase,
            resolverCount_nil] <;> omega

/-- Every resolver run in the retry loop's trace belongs to an attempt not
earlier than the starting one whose rebase was classified as a conflict. -/
theorem rebaseRetryGo_resolver_conflict (maxR turns : Nat) (repo defB : String)
    (rebase : Nat → RebaseOutcome) (resolver : Nat → ResolveOutcome) :
    ∀ fuel attempt a,
      Eff.resolverRun a ∈ (rebaseRetryGo maxR turns repo defB rebase resolver fuel attempt).1 →
      attempt ≤ a ∧ ∃ m, rebase a = .conflict m := by
  intro fuel
  induction fuel with
  | zero => intro attempt a h; simp [rebaseRetryGo] at h
  | succ fuel ih =>
      intro attempt a h
      rw [rebaseRetryGo] at h
      rcases hra : rebase attempt with _ | m | m <;> simp only [hra] at h
      · simp at h
      · by_cases hm : attempt = maxR
        · rw [if_pos hm] at h
          simp at h
        · rw [if_neg hm] at h
          rcases hr : (resolveConflictsM turns attempt (resolver attempt)).2 with _ | m2 <;>
            simp only [hr] at h
          · simp only [List.mem_append, List.mem_cons, List.not_mem_nil, or_false,
              or_assoc] at h
            rcases h with h | h | h | h | h
            · exact Eff.noConfusion h
            · exact Eff.noConfusion h
            · exact Eff.noConfusion h
            · obtain rfl := resolveConflictsM_resolver_mem turns attempt (resolver attempt) a h
              exact ⟨le_refl a, m, hra⟩
            · obtain ⟨hle, hconf⟩ := ih (attempt + 1) a h
              exact ⟨by omega, hconf⟩
          · simp only [List.mem_append, List.mem_cons, List.not_mem_nil, or_false,
              or_assoc] at h
            rcases h with h | h | h | h
            · exact Eff.noConfusion h
            · exact Eff.noConfusion h
            · exact Eff.noConfusion h
            · obtain rfl := resolveConflictsM_resolver_mem turns attempt (resolver attempt) a h
              exact ⟨le_refl a, m, hra⟩
      · by_cases hm : attempt = maxR <;> [rw [if_pos hm] at h; rw [if_neg hm] at h] <;>
          simp at h

/-- Every rebase marker in the retry loop's trace belongs to an attempt not
earlier than the starting one. -/
theorem rebaseRetryGo_rebase_mem (maxR turns : Nat) (repo defB : String)
    (rebase : Nat → RebaseOutcome) (resolver : Nat → ResolveOutcome) :
    ∀ fuel attempt a,
      Eff.gitRebase a ∈ (rebaseRetryGo maxR turns repo defB rebase resolver fuel attempt).1 →
      attempt ≤ a := by
  intro fuel
  induction fuel with
  | zero => intro attempt a h; simp [rebaseRetryGo] at h
  | succ fuel ih =>
      intro attempt a h
      rw [rebaseRetryGo] at h
      rcases hra : rebase attempt with _ | m | m <;> simp only [hra] at h
      · simp at h
        omega
      · by_cases hm : attempt = maxR
        · rw [if_pos hm] at h
          simp at h
          omega
        · rw [if_neg hm] at h
          rcases hr : (resolveConflictsM turns attempt (resolver attempt)).2 with _ | m2 <;>
            simp only [hr] at h
          · simp only [List.mem_append, List.mem_cons, List.not_mem_nil, or_false,
              or_assoc] at h
            rcases h with h | h | h | h | h
            · exact Eff.noConfusion h
            · injection h with h; omega
            · exact Eff.noConfusion h
            · exact absurd h (resolveConflictsM_no_rebase turns attempt (resolver attempt) a)
            · have := ih (attempt + 1) a h
              omega
          · simp only [List.mem_append, List.mem_cons, List.not_mem_nil, or_false,
              or_assoc] at h
            rcases h with h | h | h | h
            · exact Eff.noConfusion h
            · injection h with h; omega
            · exact Eff.noConfusion h
            · exact absurd h (resolveConflictsM_no_rebase turns attempt (resolver attempt) a)
      · by_cases hm : attempt = maxR <;> [rw [if_pos hm] at h; rw [if_neg hm] at h] <;>
          (simp at h; omega)

/-- If the rebase at a performed attempt `a` fails with a non-conflict
error, the loop returns the corresponding error (the after-N-attempts
wrapper at the final attempt, the direct wrapper otherwise), every resolver
run in the trace belongs to an earlier attempt, and no later rebase attempt
appears. -/
theorem rebaseRetryGo_fail (maxR turns : Nat) (repo defB : String)
    (rebase : Nat → RebaseOutcome) (resolver : Nat → ResolveOutcome) :
    ∀ fuel attempt a m,
      Eff.gitRebase a ∈ (rebaseRetryGo maxR turns repo defB rebase resolver fuel attempt).1 →
      rebase a = .fail m →
      (rebaseRetryGo maxR turns repo defB rebase resolver fuel attempt).2 =
        some (if a = maxR then
                "rebase failed after " ++ toString maxR ++ " attempts in " ++ repo ++ ": " ++ m
              else "rebase " ++ repo ++ ": " ++ m) ∧
      (∀ b, Eff.resolverRun b ∈
          (rebaseRetryGo maxR turns repo defB rebase resolver fuel attempt).1 → b < a) ∧
      (∀ b, Eff.gitRebase b ∈
          (rebaseRetryGo maxR turns repo defB rebase resolver fuel attempt).1 → b ≤ a) := by
  intro fuel
  induction fuel with
  | zero => intro attempt a m h _; simp [rebaseRetryGo] at h
  | succ fuel ih =>
      intro attempt a m h hfail
      rw [rebaseRetryGo] at h ⊢
      rcases hra : rebase attempt with _ | m0 | m0 <;> simp only [hra] at h ⊢
      · simp at h
        subst h
        rw [hra] at hfail
        exact RebaseOutcome.noConfusion hfail
      · by_cases hm : attempt = maxR
        · rw [if_pos hm] at h ⊢
          simp at h
          subst h
          rw [hra] at hfail
          exact RebaseOutcome.noConfusion hfail
        · rw [if_neg hm] at h ⊢
          rcases hr : (resolveConflictsM turns attempt (resolver attempt)).2 with _ | m2 <;>
            simp only [hr] at h ⊢
          · simp only [List.mem_append, List.mem_cons, List.not_mem_nil, or_false,
              or_assoc] at h
            rcases h with h | h | h | h | h
            · exact Eff.noConfusion h
            · injection h with h
              subst h
              rw [hra] at hfail
              exact RebaseOutcome.noConfusion hfail
            · exact Eff.noConfusion h
            · exact absurd h (resolveConflictsM_no_rebase turns attempt (resolver attempt) a)
            · obtain ⟨herr, hres, hreb⟩ := ih (attempt + 1) a m h hfail
              have haq := rebaseRetryGo_rebase_mem maxR turns repo defB rebase resolver
                fuel (attempt + 1) a h
              refine ⟨herr, ?_, ?_⟩
              · intro b hb
                simp only [List.mem_append, List.mem_cons, List.not_mem_nil, or_false,
                  or_assoc] at hb
                rcases hb with hb | hb | hb | hb | hb
                · exact Eff.noConfusion hb
                · exact Eff.noConfusion hb
                · exact Eff.noConfusion hb
                · obtain rfl := resolveConflictsM_resolver_mem turns attempt
                    (resolver attempt) b hb
                  omega
                · exact hres b hb
              · intro b hb
                simp only [List.mem_append, List.mem_cons, List.not_mem_nil, or_false,
                  or_assoc] at hb
                rcases hb with hb | hb | hb | hb | hb
                · exact Eff.noConfusion hb
                · injection hb with hb
                  omega
                · exact Eff.noConfusion hb
                · exact absurd hb (resolveConflictsM_no_rebase turns attempt
                    (resolver attempt) b)
                · exact hreb b hb
          · simp only [List.mem_append, List.mem_cons, List.not_mem_nil, or_false,
              or_assoc] at h
            rcases h with h | h | h | h
            · exact Eff.noConfusion h
            · injection h with h
              subst h
              rw [hra] at hfail
              exact RebaseOutcome.noConfusion hfail
            · exact Eff.noConfusion h
            · exact absurd h (resolveConflictsM_no_rebase turns attempt (resolver attempt) a)
      · by_cases hm : attempt = maxR
        · rw [if_pos hm] at h ⊢
          simp only [List.mem_cons, List.not_mem_nil, or_false] at h
          rcases h with h | h
          · exact Eff.noConfusion h
          · injection h with h
            subst h
            rw [hra] at hfail
            injection hfail with h2
            subst h2
            rw [if_pos hm]
            refine ⟨rfl, ?_, ?_⟩
            · intro b hb
              simp at hb
            · intro b hb
              simp at hb
              omega
        · rw [if_neg hm] at h ⊢
          simp only [List.mem_cons, List.not_mem_nil, or_false] at h
          rcases h with h | h
          · exact Eff.noConfusion h
          · injection h with h
            subst h
            rw [hra] at hfail
            injection hfail with h2
            subst h2
            rw [if_neg hm]
            refine ⟨rfl, ?_, ?_⟩
            · intro b hb
              simp at hb
            · intro b hb
              simp at hb
              omega

/-- C7: for a git worktree with commits ahead of the default branch, the
phase-2 rebase is retried with the conflict resolver invoked at most
`maxRebaseRetries` times and only ever in response to a conflict-classified
failure, while a rebase failure not classified as a conflict makes the
worktree processing return that error immediately: no resolver run and no
further rebase attempt happen at or after the failing attempt. -/
theorem rebase_retry_conflict_policy (maxR turns : Nat) (branchName : String)
    (wc : WtCase) (d : String) (hg : wc.isGit = true) (hd : wc.defBranch = .ok d)
    (ha : wc.ahead = true) :
    resolverCount (processWorktree maxR turns branchName wc).1 ≤ maxR ∧
    (∀ a, Eff.resolverRun a ∈ (processWorktree maxR turns branchName wc).1 →
        ∃ m, wc.rebase a = .conflict m) ∧
    (∀ a m, Eff.gitRebase a ∈ (processWorktree maxR turns branchName wc).1 →
        wc.rebase a = .fail m →
        (processWorktree maxR turns branchName wc).2.2.2 =
          some (if a = maxR then
                  "rebase failed after " ++ toString maxR ++ " attempts in " ++
                    wc.repoPath ++ ": " ++ m
                else "rebase " ++ wc.repoPath ++ ": " ++ m) ∧
        (∀ b, Eff.resolverRun b ∈ (processWorktree maxR turns branchName wc).1 → b < a) ∧
        (∀ b, Eff.gitRebase b ∈ (processWorktree maxR turns branchName wc).1 → b ≤ a)) := by
  rcases hl2 : (rebaseRetryGo maxR turns wc.repoPath d wc.rebase wc.resolver maxR 1).2
      with _ | m
  · -- the retry loop succeeded; the trace continues with merge events only
    have htail : ∃ tail, (processWorktree maxR turns branchName wc).1 =
        (rebaseRetryGo maxR turns wc.repoPath d wc.rebase wc.resolver maxR 1).1 ++ tail ∧
        resolverCount tail = 0 ∧
        (∀ b, Eff.resolverRun b ∉ tail) ∧ (∀ b, Eff.gitRebase b ∉ tail) := by
      rcases hff : wc.ffErr with _ | fm
      · rcases hmh : wc.mergedHash with _ | hsh
        · refine ⟨[.insertEvent "output" [("result",
              "Fast-forward merging " ++ branchName ++ " into " ++ d ++ "...")]],
            ?_, rfl, ?_, ?_⟩
          · unfold processWorktree
            simp [hg, hd, ha, hl2, hff, hmh, rebaseRetryLoop]
          · intro b
            simp
          · intro b
            simp
        · refine ⟨[.insertEvent "output" [("result",
              "Fast-forward merging " ++ branchName ++ " into " ++ d ++ "...")],
            .insertEvent "output" [("result",
              "Merged " ++ wc.repoPath ++ " — commit " ++ hsh.take 8)]],
            ?_, rfl, ?_, ?_⟩
          · unfold processWorktree
            simp [hg, hd, ha, hl2, hff, hmh, rebaseRetryLoop]
          · intro b
            simp
          · intro b
            simp
      · refine ⟨[.insertEvent "output" [("result",
            "Fast-forward merging " ++ branchName ++ " into " ++ d ++ "...")]],
          ?_, rfl, ?_, ?_⟩
        · unfold processWorktree
          simp [hg, hd, ha, hl2, hff, rebaseRetryLoop]
        · intro b
          simp
        · intro b
          simp
    obtain ⟨tail, hpr1, hcnt, hnores, hnoreb⟩ := htail
    refine ⟨?_, ?_, ?_⟩
    · rw [hpr1, resolverCount_append, hcnt]
      have := rebaseRetryGo_count_le maxR turns wc.repoPath d wc.rebase wc.resolver maxR 1
      omega
    · intro a hmem
      rw [hpr1, List.mem_append] at hmem
      rcases hmem with hmem | hmem
      · exact (rebaseRetryGo_resolver_conflict maxR turns wc.repoPath d wc.rebase
          wc.resolver maxR 1 a hmem).2
      · exact absurd hmem (hnores a)
    · intro a m hmem hfail
      rw [hpr1, List.mem_append] at hmem
      rcases hmem with hmem | hmem
      · have := (rebaseRetryGo_fail maxR turns wc.repoPath d wc.rebase wc.resolver
          maxR 1 a m hmem hfail).1
        rw [hl2] at this
        exact Option.noConfusion this
      · exact absurd hmem (hnoreb a)
  · -- the retry loop failed; the worktree processing returns its error
    have hpr : processWorktree maxR turns branchName wc =
        ((rebaseRetryGo maxR turns wc.repoPath d wc.rebase wc.resolver maxR 1).1,
         [], [], some m) := by
      unfold processWorktree
      simp [hg, hd, ha, hl2, rebaseRetryLoop]
    rw [hpr]
    refine ⟨?_, ?_, ?_⟩
    · exact rebaseRetryGo_count_le maxR turns wc.repoPath d wc.rebase wc.resolver maxR 1
    · intro a hmem
      exact (rebaseRetryGo_resolver_conflict maxR turns wc.repoPath d wc.rebase
        wc.resolver maxR 1 a hmem).2
    · intro a m' hmem hfail
      obtain ⟨herr, hres, hreb⟩ := rebaseRetryGo_fail maxR turns wc.repoPath d wc.rebase
        wc.resolver maxR 1 a m' hmem hfail
      rw [hl2] at herr
      injection herr with herr
      exact ⟨by rw [herr], hres, hreb⟩

/-- Witness for C7: a concrete worktree whose first rebase conflicts, is
resolved, and whose second rebase succeeds, runs the resolver at most
`maxRebaseRetries` times. -/
theorem rebase_retry_conflict_policy_witness :
    resolverCount (processWorktree 2 0 "task/ab"
      ⟨"/r", true, none, none, .ok "main", true,
       (fun a => if a = 1 then .conflict "CONFLICT (content)" else .ok),
       (fun _ => .ok "resolved"), some "b0", none, some "deadbeef12345678"⟩).1 ≤ 2 :=
  (rebase_retry_conflict_policy 2 0 "task/ab"
    ⟨"/r", true, none, none, .ok "main", true,
     (fun a => if a = 1 then .conflict "CONFLICT (content)" else .ok),
     (fun _ => .ok "resolved"), some "b0", none, some "deadbeef12345678"⟩
    "main" rfl rfl rfl).1
